import Mathlib

/-!
Verification of the `validate-api-request` OpenAPI request-validation engine.

The definitions below are a shallow embedding of the Go source:

* `validation/validator.go`   — the recursive schema validator (`ValidateSchema`,
  `validateString`, `validateNumber`, `validateArray`, `validateObject`,
  `resolveSchemaReference`, `resolveParameterReference`, `resolveDiscriminator`);
* `validation/route.go`       — `ResolveRequestPath`, `ValidateRequestPath`,
  `ValidateRequestMethod`, `GetOperation` (the `OASRequest`/`PathCache` version);
* `validation/parameters.go`  — `ValidateParameters`, `ValidateParametersForPath`,
  `mergeParameters`, `extractPathParam`;
* `validation/body.go`        — `ValidateRequestBody`;
* `validation/security.go`    — `ValidateSecurity` and the per-scheme checks;
* `oas/manager.go`            — `LoadAPI` on the specification store;
* `pkg/helpers/helpers.go`    — the boolean helper predicates.

Modelling conventions:

* Dynamic JSON values (`interface{}` after `encoding/json` decoding) are the
  inductive `Json`; Go `float64` numbers are modelled as `Rat` (the claims under
  verification do not depend on binary floating-point rounding).
* Go maps are association lists; Go map iteration order is unspecified, the
  lists fix one order (the properties verified below do not depend on it).
* External collaborators (regular-expression matching, `strconv.ParseFloat`,
  `encoding/json` decoding, `time.Parse`) are fields of the `GoEnv` record and
  the theorems quantify over them; time is an abstract `Nat` tick.
* Fallible Go code returns `Except`/`Option`; a Go run-time panic
  (nil-pointer dereference, index out of range, integer division by zero)
  is the `none`/`GoResult.panicked` branch of the embedding.
* Recursion through `$ref`/discriminator indirection is not structurally
  bounded in the source (no cycle guard), so the schema validator takes a
  fuel parameter; `none` also covers fuel exhaustion.
-/

/-- A decoded JSON value (Go `interface{}` after `encoding/json` decoding). -/
inductive Json where
  | null : Json
  | boolv : Bool → Json
  | num : Rat → Json
  | str : String → Json
  | arr : List Json → Json
  | obj : List (String × Json) → Json
deriving Repr

/-- `oas.Discriminator`: property name plus optional explicit mapping. -/
structure Discriminator where
  propertyName : String
  mapping : List (String × String)
deriving Repr

mutual
/-- `oas.Schema`, restricted to the fields the validator reads.  The recursive
knot is tied through `SchemaF` so that structure-literal syntax is available. -/
inductive Schema where
  | node : SchemaF → Schema

/-- The `additionalProperties` field is `interface{}` in Go; the validator
type-asserts `*oas.Schema` and treats anything else (`raw`) as a failure. -/
inductive AddProps where
  | sch : Schema → AddProps
  | raw : AddProps

/-- The fields of `oas.Schema` used by the validator. -/
inductive SchemaF where
  | mk : (ref type_ format : String) →
         (properties : List (String × Schema)) →
         (items : Option Schema) →
         (required : List String) →
         (enum : Option (List Json)) →
         (allOf oneOf anyOf : Option (List Schema)) →
         (addProps : Option AddProps) →
         (minimum maximum multipleOf : Option Rat) →
         (minLength maxLength : Option Nat) →
         (pattern : String) →
         (minItems maxItems : Option Nat) →
         (uniqueItems : Bool) →
         (discriminator : Option Discriminator) →
         SchemaF
end

def SchemaF.ref : SchemaF → String
  | .mk r _ _ _ _ _ _ _ _ _ _ _ _ _ _ _ _ _ _ _ _ => r

def SchemaF.type_ : SchemaF → String
  | .mk _ t _ _ _ _ _ _ _ _ _ _ _ _ _ _ _ _ _ _ _ => t

def SchemaF.format : SchemaF → String
  | .mk _ _ f _ _ _ _ _ _ _ _ _ _ _ _ _ _ _ _ _ _ => f

def SchemaF.properties : SchemaF → List (String × Schema)
  | .mk _ _ _ p _ _ _ _ _ _ _ _ _ _ _ _ _ _ _ _ _ => p

def SchemaF.items : SchemaF → Option Schema
  | .mk _ _ _ _ i _ _ _ _ _ _ _ _ _ _ _ _ _ _ _ _ => i

def SchemaF.required : SchemaF → List String
  | .mk _ _ _ _ _ r _ _ _ _ _ _ _ _ _ _ _ _ _ _ _ => r

def SchemaF.enum : SchemaF → Option (List Json)
  | .mk _ _ _ _ _ _ e _ _ _ _ _ _ _ _ _ _ _ _ _ _ => e

def SchemaF.allOf : SchemaF → Option (List Schema)
  | .mk _ _ _ _ _ _ _ a _ _ _ _ _ _ _ _ _ _ _ _ _ => a

def SchemaF.oneOf : SchemaF → Option (List Schema)
  | .mk _ _ _ _ _ _ _ _ o _ _ _ _ _ _ _ _ _ _ _ _ => o

def SchemaF.anyOf : SchemaF → Option (List Schema)
  | .mk _ _ _ _ _ _ _ _ _ a _ _ _ _ _ _ _ _ _ _ _ => a

def SchemaF.addProps : SchemaF → Option AddProps
  | .mk _ _ _ _ _ _ _ _ _ _ ap _ _ _ _ _ _ _ _ _ _ => ap

def SchemaF.minimum : SchemaF → Option Rat
  | .mk _ _ _ _ _ _ _ _ _ _ _ m _ _ _ _ _ _ _ _ _ => m

def SchemaF.maximum : SchemaF → Option Rat
  | .mk _ _ _ _ _ _ _ _ _ _ _ _ m _ _ _ _ _ _ _ _ => m

def SchemaF.multipleOf : SchemaF → Option Rat
  | .mk _ _ _ _ _ _ _ _ _ _ _ _ _ m _ _ _ _ _ _ _ => m

def SchemaF.minLength : SchemaF → Option Nat
  | .mk _ _ _ _ _ _ _ _ _ _ _ _ _ _ m _ _ _ _ _ _ => m

def SchemaF.maxLength : SchemaF → Option Nat
  | .mk _ _ _ _ _ _ _ _ _ _ _ _ _ _ _ m _ _ _ _ _ => m

def SchemaF.pattern : SchemaF → String
  | .mk _ _ _ _ _ _ _ _ _ _ _ _ _ _ _ _ p _ _ _ _ => p

def SchemaF.minItems : SchemaF → Option Nat
  | .mk _ _ _ _ _ _ _ _ _ _ _ _ _ _ _ _ _ m _ _ _ => m

def SchemaF.maxItems : SchemaF → Option Nat
  | .mk _ _ _ _ _ _ _ _ _ _ _ _ _ _ _ _ _ _ m _ _ => m

def SchemaF.uniqueItems : SchemaF → Bool
  | .mk _ _ _ _ _ _ _ _ _ _ _ _ _ _ _ _ _ _ _ u _ => u

def SchemaF.discriminator : SchemaF → Option Discriminator
  | .mk _ _ _ _ _ _ _ _ _ _ _ _ _ _ _ _ _ _ _ _ d => d

/-- Project the field record out of a schema node. -/
def Schema.f : Schema → SchemaF
  | .node f => f

/-- The zero value of `oas.Schema` (all fields absent). -/
def SchemaF.base : SchemaF :=
  .mk "" "" "" [] none [] none none none none none none none none none none "" none none false none


/-! Field-update helpers for `SchemaF` (used to build concrete schemas). -/

def SchemaF.setRef : SchemaF → String → SchemaF
  | .mk _ a1 a2 a3 a4 a5 a6 a7 a8 a9 a10 a11 a12 a13 a14 a15 a16 a17 a18 a19 a20, x => .mk x a1 a2 a3 a4 a5 a6 a7 a8 a9 a10 a11 a12 a13 a14 a15 a16 a17 a18 a19 a20
def SchemaF.setType_ : SchemaF → String → SchemaF
  | .mk a0 _ a2 a3 a4 a5 a6 a7 a8 a9 a10 a11 a12 a13 a14 a15 a16 a17 a18 a19 a20, x => .mk a0 x a2 a3 a4 a5 a6 a7 a8 a9 a10 a11 a12 a13 a14 a15 a16 a17 a18 a19 a20
def SchemaF.setFormat : SchemaF → String → SchemaF
  | .mk a0 a1 _ a3 a4 a5 a6 a7 a8 a9 a10 a11 a12 a13 a14 a15 a16 a17 a18 a19 a20, x => .mk a0 a1 x a3 a4 a5 a6 a7 a8 a9 a10 a11 a12 a13 a14 a15 a16 a17 a18 a19 a20
def SchemaF.setProperties : SchemaF → List (String × Schema) → SchemaF
  | .mk a0 a1 a2 _ a4 a5 a6 a7 a8 a9 a10 a11 a12 a13 a14 a15 a16 a17 a18 a19 a20, x => .mk a0 a1 a2 x a4 a5 a6 a7 a8 a9 a10 a11 a12 a13 a14 a15 a16 a17 a18 a19 a20
def SchemaF.setItems : SchemaF → Option Schema → SchemaF
  | .mk a0 a1 a2 a3 _ a5 a6 a7 a8 a9 a10 a11 a12 a13 a14 a15 a16 a17 a18 a19 a20, x => .mk a0 a1 a2 a3 x a5 a6 a7 a8 a9 a10 a11 a12 a13 a14 a15 a16 a17 a18 a19 a20
def SchemaF.setRequired : SchemaF → List String → SchemaF
  | .mk a0 a1 a2 a3 a4 _ a6 a7 a8 a9 a10 a11 a12 a13 a14 a15 a16 a17 a18 a19 a20, x => .mk a0 a1 a2 a3 a4 x a6 a7 a8 a9 a10 a11 a12 a13 a14 a15 a16 a17 a18 a19 a20
def SchemaF.setEnum : SchemaF → Option (List Json) → SchemaF
  | .mk a0 a1 a2 a3 a4 a5 _ a7 a8 a9 a10 a11 a12 a13 a14 a15 a16 a17 a18 a19 a20, x => .mk a0 a1 a2 a3 a4 a5 x a7 a8 a9 a10 a11 a12 a13 a14 a15 a16 a17 a18 a19 a20
def SchemaF.setAllOf : SchemaF → Option (List Schema) → SchemaF
  | .mk a0 a1 a2 a3 a4 a5 a6 _ a8 a9 a10 a11 a12 a13 a14 a15 a16 a17 a18 a19 a20, x => .mk a0 a1 a2 a3 a4 a5 a6 x a8 a9 a10 a11 a12 a13 a14 a15 a16 a17 a18 a19 a20
def SchemaF.setOneOf : SchemaF → Option (List Schema) → SchemaF
  | .mk a0 a1 a2 a3 a4 a5 a6 a7 _ a9 a10 a11 a12 a13 a14 a15 a16 a17 a18 a19 a20, x => .mk a0 a1 a2 a3 a4 a5 a6 a7 x a9 a10 a11 a12 a13 a14 a15 a16 a17 a18 a19 a20
def SchemaF.setAnyOf : SchemaF → Option (List Schema) → SchemaF
  | .mk a0 a1 a2 a3 a4 a5 a6 a7 a8 _ a10 a11 a12 a13 a14 a15 a16 a17 a18 a19 a20, x => .mk a0 a1 a2 a3 a4 a5 a6 a7 a8 x a10 a11 a12 a13 a14 a15 a16 a17 a18 a19 a20
def SchemaF.setAddProps : SchemaF → Option AddProps → SchemaF
  | .mk a0 a1 a2 a3 a4 a5 a6 a7 a8 a9 _ a11 a12 a13 a14 a15 a16 a17 a18 a19 a20, x => .mk a0 a1 a2 a3 a4 a5 a6 a7 a8 a9 x a11 a12 a13 a14 a15 a16 a17 a18 a19 a20
def SchemaF.setMinimum : SchemaF → Option Rat → SchemaF
  | .mk a0 a1 a2 a3 a4 a5 a6 a7 a8 a9 a10 _ a12 a13 a14 a15 a16 a17 a18 a19 a20, x => .mk a0 a1 a2 a3 a4 a5 a6 a7 a8 a9 a10 x a12 a13 a14 a15 a16 a17 a18 a19 a20
def SchemaF.setMaximum : SchemaF → Option Rat → SchemaF
  | .mk a0 a1 a2 a3 a4 a5 a6 a7 a8 a9 a10 a11 _ a13 a14 a15 a16 a17 a18 a19 a20, x => .mk a0 a1 a2 a3 a4 a5 a6 a7 a8 a9 a10 a11 x a13 a14 a15 a16 a17 a18 a19 a20
def SchemaF.setMultipleOf : SchemaF → Option Rat → SchemaF
  | .mk a0 a1 a2 a3 a4 a5 a6 a7 a8 a9 a10 a11 a12 _ a14 a15 a16 a17 a18 a19 a20, x => .mk a0 a1 a2 a3 a4 a5 a6 a7 a8 a9 a10 a11 a12 x a14 a15 a16 a17 a18 a19 a20
def SchemaF.setMinLength : SchemaF → Option Nat → SchemaF
  | .mk a0 a1 a2 a3 a4 a5 a6 a7 a8 a9 a10 a11 a12 a13 _ a15 a16 a17 a18 a19 a20, x => .mk a0 a1 a2 a3 a4 a5 a6 a7 a8 a9 a10 a11 a12 a13 x a15 a16 a17 a18 a19 a20
def SchemaF.setMaxLength : SchemaF → Option Nat → SchemaF
  | .mk a0 a1 a2 a3 a4 a5 a6 a7 a8 a9 a10 a11 a12 a13 a14 _ a16 a17 a18 a19 a20, x => .mk a0 a1 a2 a3 a4 a5 a6 a7 a8 a9 a10 a11 a12 a13 a14 x a16 a17 a18 a19 a20
def SchemaF.setPattern : SchemaF → String → SchemaF
  | .mk a0 a1 a2 a3 a4 a5 a6 a7 a8 a9 a10 a11 a12 a13 a14 a15 _ a17 a18 a19 a20, x => .mk a0 a1 a2 a3 a4 a5 a6 a7 a8 a9 a10 a11 a12 a13 a14 a15 x a17 a18 a19 a20
def SchemaF.setMinItems : SchemaF → Option Nat → SchemaF
  | .mk a0 a1 a2 a3 a4 a5 a6 a7 a8 a9 a10 a11 a12 a13 a14 a15 a16 _ a18 a19 a20, x => .mk a0 a1 a2 a3 a4 a5 a6 a7 a8 a9 a10 a11 a12 a13 a14 a15 a16 x a18 a19 a20
def SchemaF.setMaxItems : SchemaF → Option Nat → SchemaF
  | .mk a0 a1 a2 a3 a4 a5 a6 a7 a8 a9 a10 a11 a12 a13 a14 a15 a16 a17 _ a19 a20, x => .mk a0 a1 a2 a3 a4 a5 a6 a7 a8 a9 a10 a11 a12 a13 a14 a15 a16 a17 x a19 a20
def SchemaF.setUniqueItems : SchemaF → Bool → SchemaF
  | .mk a0 a1 a2 a3 a4 a5 a6 a7 a8 a9 a10 a11 a12 a13 a14 a15 a16 a17 a18 _ a20, x => .mk a0 a1 a2 a3 a4 a5 a6 a7 a8 a9 a10 a11 a12 a13 a14 a15 a16 a17 a18 x a20
def SchemaF.setDiscriminator : SchemaF → Option Discriminator → SchemaF
  | .mk a0 a1 a2 a3 a4 a5 a6 a7 a8 a9 a10 a11 a12 a13 a14 a15 a16 a17 a18 a19 _, x => .mk a0 a1 a2 a3 a4 a5 a6 a7 a8 a9 a10 a11 a12 a13 a14 a15 a16 a17 a18 a19 x

/-! ## Basic helpers (`pkg/helpers/helpers.go` and Go built-ins) -/

/-- Association-list lookup, modelling a Go `map[string]T` index expression. -/
def assocFind {α : Type} : List (String × α) → String → Option α
  | [], _ => none
  | (k, v) :: rest, key => if k == key then some v else assocFind rest key

/-! Strings are manipulated through their character lists so that every
definition evaluates by kernel reduction (the byte/character distinction
only matters for multi-byte UTF-8 text, which none of the verified
properties involve). -/

/-- Go `strings.HasPrefix`. -/
def goHasPre (pre s : String) : Bool := pre.data.isPrefixOf s.data

/-- Go `strings.HasSuffix`. -/
def goHasSuf (suf s : String) : Bool := suf.data.reverse.isPrefixOf s.data.reverse

/-- Drop the first `n` characters. -/
def strDrop (s : String) (n : Nat) : String := ⟨s.data.drop n⟩

/-- Drop the last `n` characters. -/
def strDropRight (s : String) (n : Nat) : String := ⟨s.data.take (s.data.length - n)⟩

/-- Character count. -/
def strLen (s : String) : Nat := s.data.length

/-- Go `len(s)`: the UTF-8 byte length. -/
def goByteLen (s : String) : Nat := (s.data.map Char.utf8Size).sum

/-- ASCII upper-casing of one character. -/
def goCharUp (ch : Char) : Char :=
  if 'a' ≤ ch ∧ ch ≤ 'z' then Char.ofNat (ch.toNat - 32) else ch

/-- ASCII lower-casing of one character. -/
def goCharLow (ch : Char) : Char :=
  if 'A' ≤ ch ∧ ch ≤ 'Z' then Char.ofNat (ch.toNat + 32) else ch

/-- Go `strings.ToUpper` (ASCII range). -/
def goToUpper (s : String) : String := ⟨s.data.map goCharUp⟩

/-- Go `strings.ToLower` (ASCII range). -/
def goToLower (s : String) : String := ⟨s.data.map goCharLow⟩

/-- Worker for `splitChar`. -/
def splitCharAux (c : Char) : List Char → List Char → List String
  | [], acc => [String.mk acc.reverse]
  | x :: xs, acc =>
    if x == c then String.mk acc.reverse :: splitCharAux c xs []
    else splitCharAux c xs (x :: acc)

/-- Go `strings.Split` with a one-character separator. -/
def splitChar (c : Char) (s : String) : List String := splitCharAux c s.data []

/-- Whitespace test backing Go `strings.TrimSpace`. -/
def goIsSpace (ch : Char) : Bool :=
  ch == ' ' || ch == '\t' || ch == '\n' || ch == '\r'

/-- Go `strings.TrimSpace` (ASCII whitespace). -/
def goTrimSpace (s : String) : String :=
  ⟨((s.data.dropWhile goIsSpace).reverse.dropWhile goIsSpace).reverse⟩

/-- Go `strings.TrimPrefix`: drop `pre` from the front of `s` when present. -/
def trimLeading (pre s : String) : String :=
  if goHasPre pre s then strDrop s (strLen pre) else s

/-- Go `int(q)` conversion from `float64`: truncation toward zero
(the numerator divided by the denominator, rounding toward zero). -/
def goTrunc (q : Rat) : Int :=
  q.num.tdiv q.den

/-- `helpers.Contains`. -/
def goContains (slice : List String) (item : String) : Bool :=
  slice.any (fun v => v == item)

/-- `helpers.IsBoolean`: native boolean or case-insensitive "true"/"false". -/
def isBoolean : Json → Bool
  | .boolv _ => true
  | .str s => goToLower s == "true" || goToLower s == "false"
  | _ => false

/-- `helpers.IsInt32` on an already-numeric value: range plus integrality. -/
def isInt32 (q : Rat) : Bool :=
  decide (-2147483648 ≤ q ∧ q ≤ 2147483647 ∧ (goTrunc q : Rat) = q)

/-- `helpers.IsInt64` on an already-numeric value: range plus integrality. -/
def isInt64 (q : Rat) : Bool :=
  decide (-9223372036854775808 ≤ q ∧ q ≤ 9223372036854775807 ∧ (goTrunc q : Rat) = q)

/-- `helpers.IsFloat`: re-parse at 32-bit width, which fails only beyond the
float32 range (the largest finite float32 is 2^128 - 2^104). -/
def isFloat (q : Rat) : Bool :=
  decide (|q| ≤ (340282346638528859811704183484516925440 : Rat))

/-- `helpers.IsDouble`: re-parsing a float64 at 64-bit width never fails. -/
def isDouble (_ : Rat) : Bool := true

/-- Equality of JSON values (backs `helpers.UniqueItems`' seen-set). -/
def Json.beq : Json → Json → Bool
  | .null, .null => true
  | .boolv a, .boolv b => a == b
  | .num a, .num b => a == b
  | .str a, .str b => a == b
  | .arr xs, .arr ys =>
    (match xs, ys with
     | [], [] => true
     | x :: xs, y :: ys => Json.beq x y && Json.beq (.arr xs) (.arr ys)
     | _, _ => false)
  | .obj xs, .obj ys =>
    (match xs, ys with
     | [], [] => true
     | (k, x) :: xs, (l, y) :: ys => k == l && Json.beq x y && Json.beq (.obj xs) (.obj ys)
     | _, _ => false)
  | _, _ => false

/-- `helpers.UniqueItems`: no two (structurally) equal elements.  (The Go
version uses a `map[interface{}]bool`, which panics on unhashable elements;
that corner is not exercised by the claims.) -/
def uniqueItems : List Json → Bool
  | [] => true
  | x :: rest => !(rest.any (fun y => Json.beq x y)) && uniqueItems rest

/-- External collaborators: regular-expression matching, format predicates,
`strconv` parsing and `encoding/json` decoding (spec §1 treats these as a
fixed library outside the core). -/
structure GoEnv where
  matchPattern : String → String → Bool
  isUUID : String → Bool
  isEmail : String → Bool
  isURL : String → Bool
  isHostname : String → Bool
  isIPv4 : String → Bool
  isIPv6 : String → Bool
  isISO8601 : String → Bool
  parseNumber : String → Option Rat
  decodeArray : String → Option (List Json)
  decodeObject : String → Option (List (String × Json))
  decodeJson : String → Except String Json

/-! ## Leaf validators (`validation/validator.go`) -/

/-- `validateString`: length bounds, pattern, string-only enum, then format
dispatch (format `byte` asserts `[]byte`, which a decoded string never is). -/
def validateString (env : GoEnv) (value : Json) (schema : Schema) : Bool :=
  match value with
  | .str str =>
    let minViol : Bool := match schema.f.minLength with
        | some m => goByteLen str < m
        | none => false
    let maxViol : Bool := match schema.f.maxLength with
        | some m => m < goByteLen str
        | none => false
    let enumViol : Bool := match schema.f.enum with
        | some entries =>
          !(entries.all (fun e => match e with | .str _ => true | _ => false)) ||
          !(goContains (entries.filterMap (fun e => match e with | .str s => some s | _ => none)) str)
        | none => false
    if minViol then false
    else if maxViol then false
    else if schema.f.pattern ≠ "" && !(env.matchPattern str schema.f.pattern) then false
    else if enumViol then false
    else
      match schema.f.format with
      | "uuid" => env.isUUID str
      | "email" => env.isEmail str
      | "url" => env.isURL str
      | "uri" => env.isURL str
      | "hostname" => env.isHostname str
      | "ipv4" => env.isIPv4 str
      | "ipv6" => env.isIPv6 str
      | "byte" => false
      | "date" => env.isISO8601 str
      | "date-time" => env.isISO8601 str
      | _ => true
  | _ => false

/-- The `switch schema.Type`/`schema.Format` tail of `validateNumber`. -/
def numFormatCheck (schema : Schema) (num : Rat) : Bool :=
  match schema.f.type_ with
  | "integer" =>
    (match schema.f.format with
     | "int32" => isInt32 num
     | _ => isInt64 num)
  | "number" =>
    (match schema.f.format with
     | "double" => isDouble num
     | _ => isFloat num)
  | _ => false

/-- `validateNumber` on an already-coerced number: range checks, then the
`multipleOf` check via `int(num) % int(*schema.MultipleOf)`.  When
`int(*schema.MultipleOf) = 0` the Go `%` raises an integer-division-by-zero
run-time panic, modelled by `none`. -/
def validateNumberCore (schema : Schema) (num : Rat) : Option Bool :=
  let minViol : Bool := match schema.f.minimum with | some m => decide (num < m) | none => false
  let maxViol : Bool := match schema.f.maximum with | some m => decide (m < num) | none => false
  if minViol then some false
  else if maxViol then some false
  else
    match schema.f.multipleOf with
    | some mo =>
      if goTrunc mo = 0 then none
      else if Int.tmod (goTrunc num) (goTrunc mo) ≠ 0 then some false
      else some (numFormatCheck schema num)
    | none => some (numFormatCheck schema num)

/-- `validateNumber`: coerce a string through `helpers.ParseNumber` first,
fail on non-numeric values, then run the core checks. -/
def validateNumber (env : GoEnv) (value : Json) (schema : Schema) : Option Bool :=
  match value with
  | .str s =>
    (match env.parseNumber s with
     | none => some false
     | some q => validateNumberCore schema q)
  | .num q => validateNumberCore schema q
  | _ => some false

/-! ## Components, parameters and reference resolution -/

/-- `oas.Parameter`, restricted to the fields the validator reads. -/
structure Parameter where
  name : String
  in_ : String
  required : Bool
  schema : Option Schema

/-- `oas.SecurityScheme`, restricted to the fields the validator reads. -/
structure SecurityScheme where
  type_ : String
  name : String
  in_ : String
  scheme : String
deriving Repr, DecidableEq

/-- `oas.ComponentCache`.  `schemas` and `parameters` are `Option` because
`resolveSchemaReference`/`resolveParameterReference` distinguish a nil map
(an error) from a miss; `securitySchemes` is only ever indexed, where a nil
Go map behaves as empty. -/
structure ComponentCache where
  schemas : Option (List (String × Schema))
  parameters : Option (List (String × Parameter))
  securitySchemes : List (String × SecurityScheme)

/-- `resolveSchemaReference`: strip the `#/components/schemas/` namespace and
look the name up in the component store; fail closed when the store or the
name is absent. -/
def resolveSchemaReference (cs : Option ComponentCache) (ref : String) : Except String Schema :=
  let r := trimLeading "#/components/schemas/" ref
  match cs with
  | none => .error "components or schemas not defined in OAS"
  | some c =>
    match c.schemas with
    | none => .error "components or schemas not defined in OAS"
    | some m =>
      match assocFind m r with
      | none => .error ("schema reference '" ++ r ++ "' not found")
      | some s => .ok s

/-- `resolveParameterReference`: the analogue for `#/components/parameters/`. -/
def resolveParameterReference (cs : Option ComponentCache) (ref : String) : Except String Parameter :=
  let r := trimLeading "#/components/parameters/" ref
  match cs with
  | none => .error "components or parameters not defined in oas"
  | some c =>
    match c.parameters with
    | none => .error "components or parameters not defined in oas"
    | some m =>
      match assocFind m r with
      | none => .error ("parameter reference '" ++ r ++ "' not found")
      | some p => .ok p

/-- The reference a discriminator value selects: the explicit mapping when
one is declared (empty on a miss), otherwise the value appended to the
component-schema namespace. -/
def discriminatorRef (d : Discriminator) (discriminatorValue : String) : String :=
  if d.mapping.length > 0 then
    (match assocFind d.mapping discriminatorValue with
     | some r => r
     | none => "")
  else "#/components/schemas/" ++ discriminatorValue

/-- `resolveDiscriminator`: require an object value, read the discriminator
property as a string, compute the mapped reference and resolve it. -/
def resolveDiscriminator (cs : Option ComponentCache) (value : Json) (schema : Schema) : Except String Schema :=
  match schema.f.discriminator with
  | none => .ok schema
  | some d =>
    match value with
    | .obj obj =>
      (match assocFind obj d.propertyName with
       | some (.str discriminatorValue) =>
         let schemaRef : String := discriminatorRef d discriminatorValue
         if schemaRef = "" then
           .error ("no schema found for discriminator value '" ++ discriminatorValue ++ "'")
         else
           (match resolveSchemaReference cs schemaRef with
            | .error e => .error ("failed to resolve discriminator schema: " ++ e)
            | .ok resolvedSchema => .ok resolvedSchema)
       | _ =>
         .error ("discriminator property '" ++ d.propertyName ++ "' not found or not string"))
    | _ => .error "value must be object when using discriminator"

/-! ## Composition combinators

The three loops over `AllOf`/`OneOf`/`AnyOf` in `ValidateSchema`, with the
sub-validator abstracted as `f`.  `none` (a panic or fuel exhaustion inside a
member) propagates exactly where the Go loop would reach the member. -/

/-- The `AllOf` loop: short-circuits on the first failing member. -/
def goAll (f : Schema → Option Bool) : List Schema → Option Bool
  | [] => some true
  | s :: rest =>
    match f s with
    | none => none
    | some false => some false
    | some true => goAll f rest

/-- The `OneOf` loop: count every matching member (no short-circuit). -/
def goCount (f : Schema → Option Bool) : List Schema → Option Nat
  | [] => some 0
  | s :: rest =>
    match f s with
    | none => none
    | some b =>
      match goCount f rest with
      | none => none
      | some n => some ((if b then 1 else 0) + n)

/-- The `AnyOf` loop: short-circuits on the first matching member. -/
def goAny (f : Schema → Option Bool) : List Schema → Option Bool
  | [] => some false
  | s :: rest =>
    match f s with
    | none => none
    | some true => some true
    | some false => goAny f rest

/-! ## Array and object validators -/

/-- The item loop of `validateArray`.  Go reads `schema.Items.Ref` for each
element, so a nil `Items` with a non-empty array is a nil-pointer panic. -/
def validateItemsWith (f : Json → Schema → Option Bool) (cs : Option ComponentCache)
    (itemsOpt : Option Schema) : List Json → Option Bool
  | [] => some true
  | item :: rest =>
    match itemsOpt with
    | none => none
    | some its =>
      if its.f.ref ≠ "" then
        match resolveSchemaReference cs its.f.ref with
        | .error _ => some false
        | .ok resolved =>
          match f item resolved with
          | none => none
          | some false => some false
          | some true => validateItemsWith f cs itemsOpt rest
      else
        match f item its with
        | none => none
        | some false => some false
        | some true => validateItemsWith f cs itemsOpt rest

/-- `validateArray` with the recursive validator abstracted as `f`. -/
def validateArrayWith (f : Json → Schema → Option Bool) (env : GoEnv) (cs : Option ComponentCache)
    (value : Json) (schema : Schema) : Option Bool :=
  let schemaOpt : Option Schema :=
    if schema.f.ref ≠ "" then
      match resolveSchemaReference cs schema.f.ref with
      | .error _ => none
      | .ok resolved => some resolved
    else some schema
  match schemaOpt with
  | none => some false
  | some schema =>
    let arrOpt : Option (List Json) :=
      match value with
      | .str s => some ((env.decodeArray s).getD [Json.str s])
      | .arr xs => some xs
      | _ => none
    match arrOpt with
    | none => some false
    | some arr =>
      let minViol : Bool := match schema.f.minItems with | some m => arr.length < m | none => false
      let maxViol : Bool := match schema.f.maxItems with | some m => m < arr.length | none => false
      if minViol then some false
      else if maxViol then some false
      else if schema.f.uniqueItems && !(uniqueItems arr) then some false
      else validateItemsWith f cs schema.f.items arr

/-- The declared-properties loop of `validateObject`. -/
def validatePropsWith (f : Json → Schema → Option Bool) (cs : Option ComponentCache)
    (obj : List (String × Json)) (required : List String) : List (String × Schema) → Option Bool
  | [] => some true
  | (propName, propSchema) :: rest =>
    match assocFind obj propName with
    | none =>
      if goContains required propName then some false
      else validatePropsWith f cs obj required rest
    | some propValue =>
      if propSchema.f.ref ≠ "" then
        match resolveSchemaReference cs propSchema.f.ref with
        | .error _ => some false
        | .ok resolved =>
          match f propValue resolved with
          | none => none
          | some false => some false
          | some true => validatePropsWith f cs obj required rest
      else
        match f propValue propSchema with
        | none => none
        | some false => some false
        | some true => validatePropsWith f cs obj required rest

/-- The `additionalProperties` loop of `validateObject`: every key not in
`properties` must pass the additional-properties schema; a non-schema value
there (the failed `*oas.Schema` assertion) rejects the object. -/
def validateAddPropsWith (f : Json → Schema → Option Bool) (props : List (String × Schema))
    (ap : AddProps) : List (String × Json) → Option Bool
  | [] => some true
  | (key, propValue) :: rest =>
    if (assocFind props key).isSome then validateAddPropsWith f props ap rest
    else
      match ap with
      | .raw => some false
      | .sch s =>
        match f propValue s with
        | none => none
        | some false => some false
        | some true => validateAddPropsWith f props ap rest

/-- `validateObject` with the recursive validator abstracted as `f`. -/
def validateObjectWith (f : Json → Schema → Option Bool) (env : GoEnv) (cs : Option ComponentCache)
    (value : Json) (schema : Schema) : Option Bool :=
  let schemaOpt : Option Schema :=
    if schema.f.ref ≠ "" then
      match resolveSchemaReference cs schema.f.ref with
      | .error _ => none
      | .ok resolved => some resolved
    else some schema
  match schemaOpt with
  | none => some false
  | some schema =>
    let objOpt : Option (List (String × Json)) :=
      match value with
      | .str s => some ((env.decodeObject s).getD [("value", Json.str s)])
      | .obj kvs => some kvs
      | _ => none
    match objOpt with
    | none => some false
    | some obj =>
      match validatePropsWith f cs obj schema.f.required schema.f.properties with
      | none => none
      | some false => some false
      | some true =>
        match schema.f.addProps with
        | none => some true
        | some ap => validateAddPropsWith f schema.f.properties ap obj

/-! ## The recursive schema validator -/

/-- `ValidateSchemaType` with the recursive validator abstracted as `f`:
dispatch on the declared `type` (empty type falls into the object case). -/
def validateSchemaTypeWith (f : Json → Schema → Option Bool) (env : GoEnv)
    (cs : Option ComponentCache) (value : Json) (schema : Schema) : Option Bool :=
  match schema.f.type_ with
  | "string" => some (validateString env value schema)
  | "integer" => validateNumber env value schema
  | "number" => validateNumber env value schema
  | "boolean" => some (isBoolean value)
  | "array" => validateArrayWith f env cs value schema
  | "object" => validateObjectWith f env cs value schema
  | "" => validateObjectWith f env cs value schema
  | _ => some false

/-- `ValidateSchema`: discriminator dispatch, then `$ref` resolution, then the
composition keywords in `allOf`/`oneOf`/`anyOf` order, then the type switch.
`none` is a Go run-time panic or fuel exhaustion. -/
def validateSchema (env : GoEnv) (cs : Option ComponentCache) : Nat → Json → Schema → Option Bool
  | 0, _, _ => none
  | fuel + 1, value, schema =>
    match schema.f.discriminator with
    | some _ =>
      (match resolveDiscriminator cs value schema with
       | .error _ => some false
       | .ok resolvedSchema => validateSchema env cs fuel value resolvedSchema)
    | none =>
      let schemaOpt : Option Schema :=
        if schema.f.ref ≠ "" then
          match resolveSchemaReference cs schema.f.ref with
          | .error _ => none
          | .ok resolved => some resolved
        else some schema
      match schemaOpt with
      | none => some false
      | some schema =>
        match schema.f.allOf with
        | some subs => goAll (fun m => validateSchema env cs fuel value m) subs
        | none =>
          match schema.f.oneOf with
          | some subs =>
            (match goCount (fun m => validateSchema env cs fuel value m) subs with
             | none => none
             | some validCount => some (validCount == 1))
          | none =>
            match schema.f.anyOf with
            | some subs => goAny (fun m => validateSchema env cs fuel value m) subs
            | none =>
              validateSchemaTypeWith (fun v s => validateSchema env cs fuel v s) env cs value schema

/-! ## Specification tree, request and pipeline state -/

/-- `oas.Operation`, restricted to the fields the pipeline reads. -/
structure MediaType where
  schema : Option Schema

/-- `oas.RequestBody`. -/
structure RequestBody where
  required : Bool
  content : List (String × MediaType)

/-- `oas.SecurityRequirement`: named scheme → scopes (scopes unused). -/
abbrev SecurityRequirement : Type := List (String × List String)

/-- `oas.Operation`, restricted to the fields the pipeline reads.
`security` distinguishes a nil slice (fall back to the global requirements)
from a present empty one. -/
structure Operation where
  parameters : List Parameter
  requestBody : Option RequestBody
  security : Option (List SecurityRequirement)

/-- `oas.PathItem`: one optional operation per HTTP method plus
path-item-level parameters. -/
structure PathItem where
  get : Option Operation
  put : Option Operation
  post : Option Operation
  delete : Option Operation
  options : Option Operation
  head : Option Operation
  patch : Option Operation
  trace : Option Operation
  parameters : List Parameter

/-- A `PathItem` with every operation absent. -/
def PathItem.empty : PathItem :=
  ⟨none, none, none, none, none, none, none, none, []⟩

/-- `oas.PathCache`: route template, item, matcher and access statistics.
`compiledRegex` carries the template the compiled regex was built from
(`parsePathsFromRaw` compiles one exactly for brace-containing routes). -/
structure PathCache where
  item : PathItem
  compiledRegex : Option String
  route : String
  lastAccess : Nat
  hitCount : Nat

/-- `oas.APISpec`, restricted to the fields validation reads. -/
structure APISpec where
  paths : List (String × PathCache)
  components : Option ComponentCache
  security : List SecurityRequirement

/-- `oas.OASRequest`: the underlying HTTP request data plus the per-request
resolution context (`Route`, `PathItem`, `Operation`) that the stages fill in. -/
structure OASRequest where
  urlPath : String
  method : String
  queryParams : List (String × String)
  headers : List (String × String)
  cookies : List (String × String)
  contentLength : Int
  body : String
  route : String
  pathItem : Option PathItem
  operation : Option Operation

/-- The mutable state a validation run touches: the spec's path map (hit
counters, timestamps) and the request's resolution context. -/
structure PState where
  spec : APISpec
  req : OASRequest

/-- Outcome of a Go call that returns `(bool, error)` but can also panic. -/
inductive GoResult (α : Type) where
  | panicked : GoResult α
  | fail : String → GoResult α
  | ok : α → GoResult α

/-- `http.Request.URL.Query().Get`: first value for the key, or `""`. -/
def queryGet (req : OASRequest) (name : String) : String :=
  (assocFind req.queryParams name).getD ""

/-- `http.Header.Get`: case-insensitive (canonicalised) header lookup. -/
def headerGet (req : OASRequest) (name : String) : String :=
  match req.headers.find? (fun kv => goToLower kv.1 == goToLower name) with
  | some kv => kv.2
  | none => ""

/-- `http.Request.Cookie`: exact-name cookie lookup, `none` when absent. -/
def cookieGet (req : OASRequest) (name : String) : Option String :=
  assocFind req.cookies name

/-! ## Router (`ResolveRequestPath`, `ValidateRequestMethod`) -/

/-- One segment of a compiled path-template regex: `{name}` becomes
`([^/]+)` (exactly one non-empty, slash-free segment), anything else is
literal.  Mixed literal/placeholder segments do not occur in the
specification's route templates. -/
def segMatches (t p : String) : Bool :=
  if goHasPre "\x7b" t && goHasSuf "\x7d" t && 3 ≤ strLen t then 0 < strLen p
  else t == p

/-- `pathTemplateToRegex` + `MatchString`: anchored segment-wise match. -/
def templateMatches (tpl path : String) : Bool :=
  let ts := splitChar '/' tpl
  let ps := splitChar '/' path
  ts.length == ps.length && (List.zip ts ps).all (fun tp => segMatches tp.1 tp.2)

/-- The regex scan in `ResolveRequestPath`: first entry whose compiled
matcher accepts the path (Go map iteration order is unspecified; the list
order stands in for it). -/
def firstRegexPair (paths : List (String × PathCache)) (path : String) : Option (String × PathCache) :=
  paths.find? (fun kv =>
    match kv.2.compiledRegex with
    | some tpl => templateMatches tpl path
    | none => false)

/-- The cache-statistics update a successful resolution performs. -/
def bumpStats (now : Nat) (pc : PathCache) : PathCache :=
  { pc with hitCount := pc.hitCount + 1, lastAccess := now }

/-- Replace the value stored under `k` (pointer mutation seen through the map). -/
def assocUpdate {α : Type} (l : List (String × α)) (k : String) (v : α) : List (String × α) :=
  l.map (fun kv => if kv.1 == k then (kv.1, v) else kv)

/-- `ResolveRequestPath`: prefer the context route over the URL path, try an
exact map hit, fall back to the precompiled matchers, then bump the entry's
statistics and store route/path-item in the request context. -/
def ResolveRequestPath (now : Nat) (st : PState) : GoResult (PathCache × PState) :=
  let path := if st.req.route ≠ "" then st.req.route else st.req.urlPath
  let found : Option (String × PathCache) :=
    match assocFind st.spec.paths path with
    | some pc => some (path, pc)
    | none => firstRegexPair st.spec.paths path
  match found with
  | none => .fail ("no schema found for path '" ++ path ++ "'")
  | some (key, pc) =>
    let pc2 := bumpStats now pc
    .ok (pc2,
      { spec := { st.spec with paths := assocUpdate st.spec.paths key pc2 },
        req := { st.req with route := pc.route, pathItem := some pc.item } })

/-- `ValidateRequestPath`: resolution, result discarded. -/
def ValidateRequestPath (now : Nat) (st : PState) : GoResult PState :=
  match ResolveRequestPath now st with
  | .panicked => .panicked
  | .fail e => .fail e
  | .ok (_, st2) => .ok st2

/-- `GetOperation`: the method-keyed dispatch over a path item. -/
def GetOperation (pathItem : PathItem) (method : String) : Option Operation :=
  match method with
  | "GET" => pathItem.get
  | "PUT" => pathItem.put
  | "POST" => pathItem.post
  | "DELETE" => pathItem.delete
  | "OPTIONS" => pathItem.options
  | "HEAD" => pathItem.head
  | "PATCH" => pathItem.patch
  | "TRACE" => pathItem.trace
  | _ => none

/-- `ValidateRequestMethod`: resolve only when the context is not yet
populated, then require an operation for the (upper-cased) method and store
it in the context. -/
def ValidateRequestMethod (now : Nat) (st : PState) : GoResult PState :=
  let step : GoResult PState :=
    if st.req.pathItem.isNone || st.req.route == "" then
      match ResolveRequestPath now st with
      | .panicked => .panicked
      | .fail e => .fail e
      | .ok (_, st2) => .ok st2
    else .ok st
  match step with
  | .panicked => .panicked
  | .fail e => .fail e
  | .ok st2 =>
    let method := goToUpper st2.req.method
    match st2.req.pathItem with
    | none => .panicked
    | some pathItem =>
      match GetOperation pathItem method with
      | none => .fail ("method '" ++ method ++ "' not allowed for path '" ++ st2.req.route ++ "'")
      | some operation =>
        .ok { st2 with req := { st2.req with operation := some operation } }

/-! ## Parameter validation (`validation/parameters.go`) -/

/-- The loop inside `extractPathParam`: scan the route template's segments
for the first `{paramName}` placeholder and index the concrete path's
segments at the same position.  The index is not bounds-checked in Go, so an
out-of-range position is a run-time panic (`none`). -/
def pathParamLoop (pathParts : List String) (paramName : String) : List String → Nat → Option String
  | [], _ => some ""
  | part :: rest, i =>
    if goHasPre "\x7b" part && goHasSuf "\x7d" part && (strDropRight (strDrop part 1) 1) == paramName then
      pathParts.get? i
    else pathParamLoop pathParts paramName rest (i + 1)

/-- `extractPathParam`: positional alignment of the route template's
placeholders with the request path's segments. -/
def extractPathParam (requestPath : String) (pc : PathCache) (paramName : String) : Option String :=
  pathParamLoop (splitChar '/' requestPath) paramName (splitChar '/' pc.route) 0

/-- `mergeParameters`: identity is (location, name); an operation-level
declaration overrides a path-item-level one.  (Go returns the merged map in
unspecified order; the surviving path-item declarations followed by the
operation declarations is one such order.) -/
def mergeParameters (pathParams opParams : List Parameter) : List Parameter :=
  pathParams.filter
    (fun p => !(opParams.any (fun q => q.in_ == p.in_ && q.name == p.name)))
  ++ opParams

/-- Raw-value extraction by parameter location (the `switch param.In`). -/
inductive RawParam where
  | missingCookie : RawParam
  | panicked : RawParam
  | val : String → RawParam

/-- The `switch param.In` of `ValidateParametersForPath`: a missing cookie
is its own immediate error; a location the switch does not know leaves the
value empty. -/
def extractRawParam (req : OASRequest) (pc : PathCache) (p : Parameter) : RawParam :=
  match p.in_ with
  | "query" => .val (queryGet req p.name)
  | "header" => .val (headerGet req p.name)
  | "path" =>
    (match extractPathParam req.urlPath pc p.name with
     | none => .panicked
     | some v => .val v)
  | "cookie" =>
    (match cookieGet req p.name with
     | none => .missingCookie
     | some v => .val v)
  | _ => .val ""

/-- The requiredness/emptiness/schema checks a single (already
reference-resolved) parameter goes through. -/
def runParamChecks (env : GoEnv) (fuel : Nat) (cs : Option ComponentCache)
    (req : OASRequest) (pc : PathCache) (p : Parameter) : GoResult Unit :=
  match extractRawParam req pc p with
  | .panicked => .panicked
  | .missingCookie => .fail ("missing cookie parameter '" ++ p.name ++ "'")
  | .val value =>
    if value == "" && p.required then
      .fail ("missing required parameter '" ++ p.name ++ "'")
    else if value ≠ "" then
      match p.schema with
      | none => .panicked
      | some sch =>
        match validateSchema env cs fuel (Json.str value) sch with
        | none => .panicked
        | some true => .ok ()
        | some false => .fail ("invalid type for parameter '" ++ p.name ++ "'")
    else .ok ()

/-- One iteration of the parameter loop: dereference `param.Schema.Ref`
(a nil schema is a nil-pointer panic), replacing the whole parameter when a
reference is declared, then run the checks. -/
def validateOneParam (env : GoEnv) (fuel : Nat) (cs : Option ComponentCache)
    (req : OASRequest) (pc : PathCache) (p : Parameter) : GoResult Unit :=
  match p.schema with
  | none => .panicked
  | some sch =>
    if sch.f.ref ≠ "" then
      match resolveParameterReference cs sch.f.ref with
      | .error e => .fail e
      | .ok p2 => runParamChecks env fuel cs req pc p2
    else runParamChecks env fuel cs req pc p

/-- The parameter loop: first failing parameter wins. -/
def runParamsLoop (env : GoEnv) (fuel : Nat) (cs : Option ComponentCache)
    (req : OASRequest) (pc : PathCache) : List Parameter → GoResult Unit
  | [] => .ok ()
  | p :: rest =>
    match validateOneParam env fuel cs req pc p with
    | .panicked => .panicked
    | .fail e => .fail e
    | .ok _ => runParamsLoop env fuel cs req pc rest

/-- `ValidateParametersForPath`: operation lookup, merge, loop. -/
def ValidateParametersForPath (env : GoEnv) (fuel : Nat) (st : PState) (pc : PathCache) :
    GoResult PState :=
  match GetOperation pc.item (goToUpper st.req.method) with
  | none => .fail ("method '" ++ goToUpper st.req.method ++ "' not allowed for path '" ++ pc.route ++ "'")
  | some operation =>
    match runParamsLoop env fuel st.spec.components st.req pc
        (mergeParameters pc.item.parameters operation.parameters) with
    | .panicked => .panicked
    | .fail e => .fail e
    | .ok _ => .ok st

/-- `ValidateParameters`: resolve (again), then validate for the path. -/
def ValidateParameters (env : GoEnv) (fuel : Nat) (now : Nat) (st : PState) : GoResult PState :=
  match ResolveRequestPath now st with
  | .panicked => .panicked
  | .fail e => .fail e
  | .ok (pc, st2) => ValidateParametersForPath env fuel st2 pc

/-! ## Body validation (`validation/body.go`) -/

/-- The content type the body stage matches: the `Content-Type` header,
defaulting to `application/json` when unset. -/
def requestContentType (req : OASRequest) : String :=
  if headerGet req "Content-Type" == "" then "application/json"
  else headerGet req "Content-Type"

/-- `ValidateRequestBody`: re-run method validation only when the context is
not fully populated (no route re-resolution otherwise), then check the
context operation's body declaration: requiredness against the content
length, content-type support, JSON decoding, schema conformance. -/
def ValidateRequestBody (env : GoEnv) (fuel : Nat) (now : Nat) (st : PState) : GoResult PState :=
  let step : GoResult PState :=
    if st.req.pathItem.isNone || st.req.route == "" || st.req.operation.isNone then
      match ValidateRequestMethod now st with
      | .panicked => .panicked
      | .fail e => .fail e
      | .ok st2 => .ok st2
    else .ok st
  match step with
  | .panicked => .panicked
  | .fail e => .fail e
  | .ok st2 =>
    match st2.req.operation with
    | none => .panicked
    | some operation =>
      match operation.requestBody with
      | none => .ok st2
      | some requestBody =>
        if requestBody.required && st2.req.contentLength == 0 then
          .fail "request body is required"
        else
          match assocFind requestBody.content (requestContentType st2.req) with
          | none => .fail ("unsupported content type '" ++ requestContentType st2.req ++ "'")
          | some mediaType =>
            match mediaType.schema with
            | none => .ok st2
            | some schema =>
              match env.decodeJson st2.req.body with
              | .error e => .fail ("invalid request body: " ++ e)
              | .ok body =>
                match validateSchema env st2.spec.components fuel body schema with
                | none => .panicked
                | some true => .ok st2
                | some false => .fail "request body does not match schema"

/-! ## Security validation (`validation/security.go`) -/

/-- `validateAPIKeySecurity`: a non-empty value at the declared location. -/
def validateAPIKeySecurity (req : OASRequest) (s : SecurityScheme) : Bool :=
  let value :=
    match s.in_ with
    | "header" => headerGet req s.name
    | "query" => queryGet req s.name
    | "cookie" => (cookieGet req s.name).getD ""
    | _ => ""
  value ≠ ""

/-- `validateHTTPSecurity`: the declared scheme name is lower-cased, then
the `Authorization` header must start with the corresponding
canonically-capitalised token — a case-sensitive prefix test on the header. -/
def validateHTTPSecurity (req : OASRequest) (s : SecurityScheme) : Bool :=
  let authHeader := headerGet req "Authorization"
  if authHeader == "" then false
  else
    match goToLower s.scheme with
    | "basic" => goHasPre "Basic " authHeader
    | "bearer" => goHasPre "Bearer " authHeader
    | "digest" => goHasPre "Digest " authHeader
    | "apikey" => goHasPre "ApiKey " authHeader
    | _ => false

/-- `validateOAuth2Security`: non-empty token after `Bearer `. -/
def validateOAuth2Security (req : OASRequest) : Bool :=
  let authHeader := headerGet req "Authorization"
  if authHeader == "" || !(goHasPre "Bearer " authHeader) then false
  else (goTrimSpace (trimLeading "Bearer " authHeader)) ≠ ""

/-- `validateOpenIdConnectSecurity`: bearer token, or `id_token` query. -/
def validateOpenIdConnectSecurity (req : OASRequest) : Bool :=
  let authHeader := headerGet req "Authorization"
  if authHeader ≠ "" && goHasPre "Bearer " authHeader then
    (goTrimSpace (trimLeading "Bearer " authHeader)) ≠ ""
  else queryGet req "id_token" ≠ ""

/-- `validateSecurityRequirement`: every named scheme of the set must be
satisfied.  Dereferencing `Components.SecuritySchemes` with nil `Components`
is a nil-pointer panic (only reached when the set is non-empty). -/
def validateSecurityRequirement (spec : APISpec) (req : OASRequest) :
    List (String × List String) → Option Bool
  | [] => some true
  | (schemeName, _) :: rest =>
    match spec.components with
    | none => none
    | some cc =>
      match assocFind cc.securitySchemes schemeName with
      | none => some false
      | some secScheme =>
        let ok : Bool :=
          match secScheme.type_ with
          | "apiKey" => validateAPIKeySecurity req secScheme
          | "http" => validateHTTPSecurity req secScheme
          | "oauth2" => validateOAuth2Security req
          | "openIdConnect" => validateOpenIdConnectSecurity req
          | _ => false
        if ok then validateSecurityRequirement spec req rest else some false

/-- The OR over requirement sets in `ValidateSecurity`. -/
def anySecurityRequirement (spec : APISpec) (req : OASRequest) (st : PState) :
    List SecurityRequirement → GoResult PState
  | [] => .fail "request does not satisfy any security requirements"
  | r :: rest =>
    match validateSecurityRequirement spec req r with
    | none => .panicked
    | some true => .ok st
    | some false => anySecurityRequirement spec req st rest

/-- `ValidateSecurity`: re-run method validation when the context is not
fully populated, pick operation-level or global requirements, empty list
passes, otherwise any one satisfied set passes. -/
def ValidateSecurity (now : Nat) (st : PState) : GoResult PState :=
  let step : GoResult PState :=
    if st.req.pathItem.isNone || st.req.route == "" || st.req.operation.isNone then
      match ValidateRequestMethod now st with
      | .panicked => .panicked
      | .fail e => .fail e
      | .ok st2 => .ok st2
    else .ok st
  match step with
  | .panicked => .panicked
  | .fail e => .fail e
  | .ok st2 =>
    match st2.req.operation with
    | none => .panicked
    | some operation =>
      let securityRequirements :=
        match operation.security with
        | none => st2.spec.security
        | some l => l
      if securityRequirements.isEmpty then .ok st2
      else anySecurityRequirement st2.spec st2.req st2 securityRequirements

/-! ## The pipeline (`ValidateRequest`) -/

/-- `ValidateRequest`: the five stages in order, first failure returned. -/
def ValidateRequest (env : GoEnv) (fuel : Nat) (now : Nat) (st : PState) : GoResult PState :=
  match ValidateRequestPath now st with
  | .panicked => .panicked
  | .fail e => .fail e
  | .ok st1 =>
    match ValidateRequestMethod now st1 with
    | .panicked => .panicked
    | .fail e => .fail e
    | .ok st2 =>
      match ValidateParameters env fuel now st2 with
      | .panicked => .panicked
      | .fail e => .fail e
      | .ok st3 =>
        match ValidateRequestBody env fuel now st3 with
        | .panicked => .panicked
        | .fail e => .fail e
        | .ok st4 => ValidateSecurity now st4

/-! ## Specification store (`oas/manager.go`) -/

/-- One stored specification: the parsed tree plus the content hash and the
access statistics `LoadAPI` initialises. -/
structure StoredSpec where
  data : APISpec
  hash : Nat
  lastAccess : Nat
  hitCount : Nat

/-- The manager's entry map, keyed by logical API name. -/
abbrev Store : Type := List (String × StoredSpec)

/-- `delete(m.apiSpecs, name)`. -/
def storeRemove (store : Store) (name : String) : Store :=
  store.filter (fun kv => kv.1 ≠ name)

/-- `LoadAPI`: hash the content; an existing entry with the same hash is a
no-op; a different hash removes the old entry; then parse (an external
collaborator, combining the base/paths/components unmarshal steps) and
insert a fresh entry with zeroed statistics.  `hashFn` models `xxh3`. -/
def LoadAPI (parse : String → Except String APISpec) (hashFn : String → Nat) (now : Nat)
    (store : Store) (name content : String) : Except String Store :=
  let h := hashFn content
  let doLoad : Store → Except String Store := fun st =>
    match parse content with
    | .error e => .error e
    | .ok data =>
      .ok (st ++ [(name, { data := data, hash := h, lastAccess := now, hitCount := 0 })])
  match assocFind store name with
  | some existing =>
    if existing.hash == h then .ok store
    else doLoad (storeRemove store name)
  | none => doLoad store

/-! ## Shared concrete environment for witnesses -/

/-- A concrete instantiation of the external collaborators, used by the
witness theorems: all format predicates accept, nothing parses or decodes. -/
def witEnv : GoEnv :=
  { matchPattern := fun _ _ => true
    isUUID := fun _ => true
    isEmail := fun _ => true
    isURL := fun _ => true
    isHostname := fun _ => true
    isIPv4 := fun _ => true
    isIPv6 := fun _ => true
    isISO8601 := fun _ => true
    parseNumber := fun _ => none
    decodeArray := fun _ => none
    decodeObject := fun _ => none
    decodeJson := fun _ => .error "EOF" }

/-! ## Shared lemmas -/

/-- A positive rational below one truncates (toward zero) to `0`. -/
theorem goTrunc_eq_zero_of_pos_of_lt_one {q : Rat} (h0 : 0 < q) (h1 : q < 1) :
    goTrunc q = 0 := by
  have hnum : 0 < q.num := Rat.num_pos.mpr h0
  have hden : q.num < (q.den : Int) := Rat.lt_one_iff_num_lt_denom.mp h1
  exact Int.tdiv_eq_zero_of_lt hnum.le hden

/-- C8: for a schema of type `integer`/`number` with `multipleOf` set to a
positive value strictly below one, `validateNumber` on any number passing the
`minimum`/`maximum` checks evaluates `int(num) % int(*schema.MultipleOf)`
with a zero divisor — a Go integer-division-by-zero run-time panic (the
`none` branch of the embedding) instead of a boolean verdict. -/
theorem validateNumber_fractional_multipleOf_panics
    (env : GoEnv) (schema : Schema) (mo num : Rat)
    (_hty : schema.f.type_ = "integer" ∨ schema.f.type_ = "number")
    (hmo : schema.f.multipleOf = some mo)
    (hpos : 0 < mo) (hlt : mo < 1)
    (hmin : ∀ m, schema.f.minimum = some m → ¬ num < m)
    (hmax : ∀ m, schema.f.maximum = some m → ¬ m < num) :
    validateNumber env (Json.num num) schema = none := by
  have htr : goTrunc mo = 0 := goTrunc_eq_zero_of_pos_of_lt_one hpos hlt
  have hminb : (match schema.f.minimum with
      | some m => decide (num < m)
      | none => false) = false := by
    cases hm : schema.f.minimum with
    | none => rfl
    | some m => simpa using hmin m hm
  have hmaxb : (match schema.f.maximum with
      | some m => decide (m < num)
      | none => false) = false := by
    cases hm : schema.f.maximum with
    | none => rfl
    | some m => simpa using hmax m hm
  simp only [validateNumber, validateNumberCore, hminb, hmaxb, hmo, htr]
  simp

/-- The schema of the C8 witness: `integer` with `multipleOf: 0.5`. -/
def c8Schema : Schema :=
  .node ((SchemaF.base.setType_ "integer").setMultipleOf (some (mkRat 1 2)))

/-- C8 witness: the panic branch is reached at `multipleOf = 1/2`, value `2`. -/
theorem validateNumber_fractional_multipleOf_panics_witness :
    validateNumber witEnv (Json.num 2) c8Schema = none :=
  validateNumber_fractional_multipleOf_panics witEnv c8Schema (mkRat 1 2) 2
    (Or.inl rfl) rfl (by norm_num [mkRat]) (by norm_num [mkRat])
    (fun m hm => nomatch hm) (fun m hm => nomatch hm)

/-- The `AllOf` loop computes the boolean AND of the members when no member
panics or exhausts fuel. -/
theorem goAll_eq_all (f : Schema → Option Bool) (l : List Schema)
    (h : ∀ m ∈ l, f m ≠ none) :
    goAll f l = some (l.all (fun m => f m == some true)) := by
  induction l with
  | nil => rfl
  | cons s rest ih =>
    have hs := h s (by simp)
    cases hfs : f s with
    | none => exact absurd hfs hs
    | some b =>
      cases b with
      | false => simp [goAll, hfs]
      | true => simp [goAll, hfs, ih (fun m hm => h m (by simp [hm]))]

/-- The `OneOf` loop computes the number of matching members when no member
panics or exhausts fuel. -/
theorem goCount_eq_countP (f : Schema → Option Bool) (l : List Schema)
    (h : ∀ m ∈ l, f m ≠ none) :
    goCount f l = some (l.countP (fun m => f m == some true)) := by
  induction l with
  | nil => rfl
  | cons s rest ih =>
    have hs := h s (by simp)
    cases hfs : f s with
    | none => exact absurd hfs hs
    | some b =>
      have ih2 := ih (fun m hm => h m (by simp [hm]))
      cases b with
      | false => simp [goCount, hfs, ih2, List.countP_cons]
      | true => simp [goCount, hfs, ih2, List.countP_cons, Nat.add_comm]

/-- The `AnyOf` loop computes the boolean OR of the members when no member
panics or exhausts fuel. -/
theorem goAny_eq_any (f : Schema → Option Bool) (l : List Schema)
    (h : ∀ m ∈ l, f m ≠ none) :
    goAny f l = some (l.any (fun m => f m == some true)) := by
  induction l with
  | nil => rfl
  | cons s rest ih =>
    have hs := h s (by simp)
    cases hfs : f s with
    | none => exact absurd hfs hs
    | some b =>
      cases b with
      | true => simp [goAny, hfs]
      | false => simp [goAny, hfs, ih (fun m hm => h m (by simp [hm]))]

/-- One unfolding step of `ValidateSchema` for a node with no discriminator
and no `$ref`: straight to the composition keywords. -/
theorem validateSchema_succ_plain (env : GoEnv) (cs : Option ComponentCache)
    (fuel : Nat) (value : Json) (schema : Schema)
    (hdisc : schema.f.discriminator = none) (href : schema.f.ref = "") :
    validateSchema env cs (fuel + 1) value schema =
      (match schema.f.allOf with
       | some subs => goAll (fun m => validateSchema env cs fuel value m) subs
       | none =>
         match schema.f.oneOf with
         | some subs =>
           (match goCount (fun m => validateSchema env cs fuel value m) subs with
            | none => none
            | some validCount => some (validCount == 1))
         | none =>
           match schema.f.anyOf with
           | some subs => goAny (fun m => validateSchema env cs fuel value m) subs
           | none => validateSchemaTypeWith (fun v s => validateSchema env cs fuel v s) env cs value schema) := by
  conv_lhs => rw [validateSchema]
  simp [hdisc, href]

/-- C1: for a schema node with a composition list set (no discriminator, no
`$ref`), `ValidateSchema` returns: with `allOf`, true iff every member
validates; with `oneOf` (and no `allOf`), true iff exactly one member
validates — zero or two-or-more matches give false; with `anyOf` (and no
`allOf`/`oneOf`), true iff at least one member validates.  The stated
equalities also pin the false cases, given that no member panics or runs
out of fuel. -/
theorem validateSchema_composition_semantics
    (env : GoEnv) (cs : Option ComponentCache) (fuel : Nat) (value : Json) (schema : Schema)
    (hdisc : schema.f.discriminator = none) (href : schema.f.ref = "") :
    (∀ subs, schema.f.allOf = some subs →
       (∀ m ∈ subs, validateSchema env cs fuel value m ≠ none) →
       validateSchema env cs (fuel + 1) value schema =
         some (subs.all (fun m => validateSchema env cs fuel value m == some true)) ∧
       (validateSchema env cs (fuel + 1) value schema = some true ↔
         ∀ m ∈ subs, validateSchema env cs fuel value m = some true)) ∧
    (schema.f.allOf = none → ∀ subs, schema.f.oneOf = some subs →
       (∀ m ∈ subs, validateSchema env cs fuel value m ≠ none) →
       validateSchema env cs (fuel + 1) value schema =
         some (subs.countP (fun m => validateSchema env cs fuel value m == some true) == 1) ∧
       (validateSchema env cs (fuel + 1) value schema = some true ↔
         subs.countP (fun m => validateSchema env cs fuel value m == some true) = 1)) ∧
    (schema.f.allOf = none → schema.f.oneOf = none → ∀ subs, schema.f.anyOf = some subs →
       (∀ m ∈ subs, validateSchema env cs fuel value m ≠ none) →
       validateSchema env cs (fuel + 1) value schema =
         some (subs.any (fun m => validateSchema env cs fuel value m == some true)) ∧
       (validateSchema env cs (fuel + 1) value schema = some true ↔
         ∃ m ∈ subs, validateSchema env cs fuel value m = some true)) := by
  refine ⟨?_, ?_, ?_⟩
  · intro subs hall htot
    have hstep := validateSchema_succ_plain env cs fuel value schema hdisc href
    rw [hall] at hstep
    have heq : validateSchema env cs (fuel + 1) value schema =
        some (subs.all (fun m => validateSchema env cs fuel value m == some true)) := by
      rw [hstep]
      exact goAll_eq_all _ subs htot
    refine ⟨heq, ?_⟩
    rw [heq]
    simp [List.all_eq_true]
  · intro hallN subs hone htot
    have hstep := validateSchema_succ_plain env cs fuel value schema hdisc href
    rw [hallN, hone] at hstep
    have hcount := goCount_eq_countP (fun m => validateSchema env cs fuel value m) subs htot
    have heq : validateSchema env cs (fuel + 1) value schema =
        some (subs.countP (fun m => validateSchema env cs fuel value m == some true) == 1) := by
      rw [hstep]
      simp only [hcount]
    refine ⟨heq, ?_⟩
    rw [heq]
    simp
  · intro hallN honeN subs hany htot
    have hstep := validateSchema_succ_plain env cs fuel value schema hdisc href
    rw [hallN, honeN, hany] at hstep
    have heq : validateSchema env cs (fuel + 1) value schema =
        some (subs.any (fun m => validateSchema env cs fuel value m == some true)) := by
      rw [hstep]
      exact goAny_eq_any _ subs htot
    refine ⟨heq, ?_⟩
    rw [heq]
    simp [List.any_eq_true]

/-- A plain string-typed schema. -/
def strSchema : Schema := .node (SchemaF.base.setType_ "string")

/-- A plain integer-typed schema. -/
def intSchema : Schema := .node (SchemaF.base.setType_ "integer")

/-- The C1 witness schema: `oneOf: [string, integer]`. -/
def c1Schema : Schema := .node (SchemaF.base.setOneOf (some [strSchema, intSchema]))

/-- C1 witness: under `witEnv`, `"hi"` matches exactly the string member of
the `oneOf`, so validation succeeds. -/
theorem validateSchema_composition_semantics_witness :
    validateSchema witEnv none 2 (Json.str "hi") c1Schema = some true := by
  have h := (validateSchema_composition_semantics witEnv none 1 (Json.str "hi") c1Schema
      rfl rfl).2.1 rfl [strSchema, intSchema] rfl (by decide)
  rw [h.1]
  decide

/-- One unfolding step of `ValidateSchema` for a node with a discriminator:
dispatch through `resolveDiscriminator` only. -/
theorem validateSchema_succ_disc (env : GoEnv) (cs : Option ComponentCache)
    (fuel : Nat) (value : Json) (schema : Schema) (d : Discriminator)
    (hdisc : schema.f.discriminator = some d) :
    validateSchema env cs (fuel + 1) value schema =
      (match resolveDiscriminator cs value schema with
       | .error _ => some false
       | .ok rs => validateSchema env cs fuel value rs) := by
  conv_lhs => rw [validateSchema]
  simp [hdisc]

/-- `resolveDiscriminator` reads nothing of the schema besides its
discriminator: two schemas with the same one resolve identically. -/
theorem resolveDiscriminator_congr (cs : Option ComponentCache) (value : Json)
    (s1 s2 : Schema) (d : Discriminator)
    (h1 : s1.f.discriminator = some d) (h2 : s2.f.discriminator = some d) :
    resolveDiscriminator cs value s1 = resolveDiscriminator cs value s2 := by
  unfold resolveDiscriminator
  rw [h1, h2]

/-- C2: for a schema node carrying a discriminator, `ValidateSchema`
validates the value only against the single schema the discriminator
selects (explicit mapping table, or the property value appended to the
component-schema namespace when no mapping exists) — the sibling
`oneOf`/`anyOf` lists are never consulted — and returns false when the
value is not an object, when the discriminator property is missing or not
a string, and when the selected name resolves to no component schema. -/
theorem validateSchema_discriminator_dispatch
    (env : GoEnv) (cs : Option ComponentCache) (fuel : Nat) (value : Json)
    (schema : Schema) (d : Discriminator)
    (hdisc : schema.f.discriminator = some d) :
    (validateSchema env cs (fuel + 1) value schema =
       (match resolveDiscriminator cs value schema with
        | .error _ => some false
        | .ok rs => validateSchema env cs fuel value rs)) ∧
    (∀ o a, validateSchema env cs (fuel + 1) value
        (Schema.node ((schema.f.setOneOf o).setAnyOf a)) =
      validateSchema env cs (fuel + 1) value schema) ∧
    ((∀ kvs, value ≠ Json.obj kvs) →
       validateSchema env cs (fuel + 1) value schema = some false) ∧
    (∀ kvs, value = Json.obj kvs →
       (∀ s, assocFind kvs d.propertyName ≠ some (Json.str s)) →
       validateSchema env cs (fuel + 1) value schema = some false) ∧
    (∀ kvs dv, value = Json.obj kvs →
       assocFind kvs d.propertyName = some (Json.str dv) →
       (discriminatorRef d dv = "" ∨
         ∃ e, resolveSchemaReference cs (discriminatorRef d dv) = Except.error e) →
       validateSchema env cs (fuel + 1) value schema = some false) ∧
    (∀ kvs dv rs, value = Json.obj kvs →
       assocFind kvs d.propertyName = some (Json.str dv) →
       discriminatorRef d dv ≠ "" →
       resolveSchemaReference cs (discriminatorRef d dv) = Except.ok rs →
       validateSchema env cs (fuel + 1) value schema = validateSchema env cs fuel value rs) := by
  have hstep := validateSchema_succ_disc env cs fuel value schema d hdisc
  refine ⟨hstep, ?_, ?_, ?_, ?_, ?_⟩
  · intro o a
    have hpres : ((schema.f.setOneOf o).setAnyOf a).discriminator = some d := by
      obtain ⟨sf⟩ := schema
      cases sf
      simpa [SchemaF.setOneOf, SchemaF.setAnyOf, SchemaF.discriminator, Schema.f] using hdisc
    have hstep2 := validateSchema_succ_disc env cs fuel value
        (Schema.node ((schema.f.setOneOf o).setAnyOf a)) d (by simpa [Schema.f] using hpres)
    rw [hstep2, hstep,
      resolveDiscriminator_congr cs value (Schema.node ((schema.f.setOneOf o).setAnyOf a))
        schema d (by simpa [Schema.f] using hpres) hdisc]
  · intro hobj
    rw [hstep]
    have hres : resolveDiscriminator cs value schema =
        Except.error "value must be object when using discriminator" := by
      unfold resolveDiscriminator
      rw [hdisc]
      cases value with
      | obj kvs => exact absurd rfl (hobj kvs)
      | null => rfl
      | boolv b => rfl
      | num q => rfl
      | str s => rfl
      | arr xs => rfl
    rw [hres]
  · intro kvs hv hfind
    subst hv
    rw [hstep]
    have hres : resolveDiscriminator cs (Json.obj kvs) schema =
        Except.error ("discriminator property '" ++ d.propertyName ++ "' not found or not string") := by
      unfold resolveDiscriminator
      rw [hdisc]
      cases hf : assocFind kvs d.propertyName with
      | none => simp [hf]
      | some j =>
        cases j with
        | str s => exact absurd hf (hfind s)
        | null => simp [hf]
        | boolv b => simp [hf]
        | num q => simp [hf]
        | arr xs => simp [hf]
        | obj o => simp [hf]
    rw [hres]
  · intro kvs dv hv hfind hbad
    subst hv
    rw [hstep]
    have hres : resolveDiscriminator cs (Json.obj kvs) schema =
        (if discriminatorRef d dv = "" then
           Except.error ("no schema found for discriminator value '" ++ dv ++ "'")
         else
           match resolveSchemaReference cs (discriminatorRef d dv) with
           | Except.error e => Except.error ("failed to resolve discriminator schema: " ++ e)
           | Except.ok rs => Except.ok rs) := by
      unfold resolveDiscriminator
      rw [hdisc]
      simp only [hfind]
    rw [hres]
    cases hbad with
    | inl hempty => simp [hempty]
    | inr hresolve =>
      obtain ⟨e, he⟩ := hresolve
      by_cases hz : discriminatorRef d dv = ""
      · simp [hz]
      · simp [hz, he]
  · intro kvs dv rs hv hfind hne hok
    subst hv
    rw [hstep]
    have hres : resolveDiscriminator cs (Json.obj kvs) schema = Except.ok rs := by
      unfold resolveDiscriminator
      rw [hdisc]
      simp only [hfind]
      simp [hne, hok]
    rw [hres]

/-- `Dog` component schema: an object requiring a boolean `bark`. -/
def dogSchema : Schema :=
  .node (((SchemaF.base.setType_ "object").setProperties
    [("bark", .node (SchemaF.base.setType_ "boolean"))]).setRequired ["bark"])

/-- `Cat` component schema: an object with an optional boolean `meow`. -/
def catSchema : Schema :=
  .node ((SchemaF.base.setType_ "object").setProperties
    [("meow", .node (SchemaF.base.setType_ "boolean"))])

/-- Component store holding `Dog` and `Cat`. -/
def petComponents : ComponentCache :=
  { schemas := some [("Dog", dogSchema), ("Cat", catSchema)]
    parameters := none
    securitySchemes := [] }

/-- Discriminator on `pet_type` with no explicit mapping. -/
def petDiscriminator : Discriminator := { propertyName := "pet_type", mapping := [] }

/-- `oneOf: [Dog, Cat]` with the `pet_type` discriminator. -/
def petSchema : Schema :=
  .node ((SchemaF.base.setOneOf
      (some [.node (SchemaF.base.setRef "#/components/schemas/Dog"),
             .node (SchemaF.base.setRef "#/components/schemas/Cat")])).setDiscriminator
    (some petDiscriminator))

/-- A payload that satisfies `Cat` but not `Dog` (no `bark`). -/
def petValue : Json := Json.obj [("pet_type", Json.str "Dog")]

set_option maxRecDepth 4000 in
/-- C2 witness: the discriminator dispatches the payload to `Dog` only, and
the payload fails `Dog` even though the sibling `Cat` would accept it. -/
theorem validateSchema_discriminator_dispatch_witness :
    validateSchema witEnv (some petComponents) 3 petValue petSchema = some false := by
  have h := (validateSchema_discriminator_dispatch witEnv (some petComponents) 2 petValue
      petSchema petDiscriminator rfl).2.2.2.2.2
  have h2 := h [("pet_type", Json.str "Dog")] "Dog" dogSchema rfl rfl (by decide) rfl
  rw [show petValue = Json.obj [("pet_type", Json.str "Dog")] from rfl] at h2 ⊢
  rw [h2]
  decide

/-- A successful exact map hit in `ResolveRequestPath`: the entry is
returned with bumped statistics and the context is populated, regardless of
any templated entries. -/
theorem ResolveRequestPath_found (now : Nat) (st : PState) (path : String) (pc : PathCache)
    (hpath : (if st.req.route ≠ "" then st.req.route else st.req.urlPath) = path)
    (hfound : assocFind st.spec.paths path = some pc) :
    ResolveRequestPath now st = GoResult.ok (bumpStats now pc,
      { spec := { st.spec with paths := assocUpdate st.spec.paths path (bumpStats now pc) },
        req := { st.req with route := pc.route, pathItem := some pc.item } }) := by
  unfold ResolveRequestPath
  simp only [hpath, hfound]

/-- C3: when the declared route set has a literal entry for the concrete
request path (and the request context carries no pre-resolved route), route
resolution returns that literal entry immediately — the templated matchers
are not consulted, whatever they would match. -/
theorem resolve_exact_match_precedence (now : Nat) (st : PState) (pc : PathCache)
    (hroute : st.req.route = "")
    (hfound : assocFind st.spec.paths st.req.urlPath = some pc) :
    ResolveRequestPath now st = GoResult.ok (bumpStats now pc,
      { spec := { st.spec with paths := assocUpdate st.spec.paths st.req.urlPath (bumpStats now pc) },
        req := { st.req with route := pc.route, pathItem := some pc.item } }) :=
  ResolveRequestPath_found now st st.req.urlPath pc (by simp [hroute]) hfound

/-- A GET-only operation with no parameters, body or security. -/
def plainOp : Operation := { parameters := [], requestBody := none, security := none }

/-- A path item exposing only GET. -/
def plainItem : PathItem := { PathItem.empty with get := some plainOp }

/-- The literal `/pets` entry. -/
def petsPc : PathCache :=
  { item := plainItem, compiledRegex := none, route := "/pets", lastAccess := 0, hitCount := 0 }

/-- The templated `/pets/{petId}` entry. -/
def petsIdPc : PathCache :=
  { item := plainItem, compiledRegex := some "/pets/{petId}", route := "/pets/{petId}",
    lastAccess := 0, hitCount := 0 }

/-- A templated `/{x}` entry whose matcher accepts `/pets`. -/
def wildPc : PathCache :=
  { item := plainItem, compiledRegex := some "/{x}", route := "/{x}", lastAccess := 0, hitCount := 0 }

/-- Route set declaring the templates before the literal `/pets`. -/
def petsSpec : APISpec :=
  { paths := [("/{x}", wildPc), ("/pets/{petId}", petsIdPc), ("/pets", petsPc)],
    components := none, security := [] }

/-- A fresh GET request for `/pets`. -/
def petsReq : OASRequest :=
  { urlPath := "/pets", method := "GET", queryParams := [], headers := [], cookies := [],
    contentLength := 0, body := "", route := "", pathItem := none, operation := none }

/-- The pipeline state for the C3 witness. -/
def petsSt : PState := { spec := petsSpec, req := petsReq }

/-- C3 witness: `/pets` resolves to the literal `/pets` entry although the
`/{x}` template (listed first) also matches the path. -/
theorem resolve_exact_match_precedence_witness :
    ResolveRequestPath 1 petsSt = GoResult.ok (bumpStats 1 petsPc,
      { spec := { petsSpec with paths := assocUpdate petsSpec.paths "/pets" (bumpStats 1 petsPc) },
        req := { petsReq with route := "/pets", pathItem := some petsPc.item } }) ∧
    templateMatches "/{x}" "/pets" = true := by
  constructor
  · exact resolve_exact_match_precedence 1 petsSt petsPc rfl rfl
  · decide

/-- The two parameter-error messages differ (first characters differ). -/
theorem invalidType_ne_missingRequired (n : String) :
    ("invalid type for parameter '" ++ n ++ "'") ≠
      ("missing required parameter '" ++ n ++ "'") := by
  intro h
  have h1 : ("invalid type for parameter '" ++ n ++ "'").data.head? = some 'i' := rfl
  rw [h] at h1
  have h2 : ("missing required parameter '" ++ n ++ "'").data.head? = some 'm' := rfl
  rw [h2] at h1
  exact absurd h1 (by decide)

/-- C4: for a merged parameter whose raw value extraction succeeds (so not a
missing cookie, which errors earlier, nor a path-extraction panic), the
missing-required error is raised exactly when the extracted value is empty
and the parameter required; an empty value for an optional parameter skips
the Schema Validator entirely (the outcome is `ok` for every validator
environment, component store and fuel, so an explicitly supplied empty
value is indistinguishable from an omitted one); and a non-empty value
rejected by the Schema Validator yields the invalid-type error. -/
theorem validateOneParam_requiredness
    (env : GoEnv) (fuel : Nat) (cs : Option ComponentCache)
    (req : OASRequest) (pc : PathCache) (p : Parameter) (sch : Schema) (value : String)
    (hsch : p.schema = some sch) (href : sch.f.ref = "")
    (hval : extractRawParam req pc p = RawParam.val value) :
    ((validateOneParam env fuel cs req pc p =
        GoResult.fail ("missing required parameter '" ++ p.name ++ "'")) ↔
      (value = "" ∧ p.required = true)) ∧
    (value = "" → p.required = false →
      ∀ (env2 : GoEnv) (fuel2 : Nat) (cs2 : Option ComponentCache),
        validateOneParam env2 fuel2 cs2 req pc p = GoResult.ok ()) ∧
    (value ≠ "" →
      validateSchema env cs fuel (Json.str value) sch = some false →
      validateOneParam env fuel cs req pc p =
        GoResult.fail ("invalid type for parameter '" ++ p.name ++ "'")) := by
  have hrun : ∀ (env2 : GoEnv) (fuel2 : Nat) (cs2 : Option ComponentCache),
      validateOneParam env2 fuel2 cs2 req pc p = runParamChecks env2 fuel2 cs2 req pc p := by
    intro env2 fuel2 cs2
    unfold validateOneParam
    rw [hsch]
    simp [href]
  refine ⟨?_, ?_, ?_⟩
  · rw [hrun, runParamChecks, hval]
    by_cases hempty : value = ""
    · subst hempty
      by_cases hreq : p.required
      · simp [hreq]
      · simp [hreq]
    · have hne : (value == "") = false := by simp [hempty]
      rw [hsch]
      simp only [hne, Bool.false_and]
      rw [if_neg (by simp), if_pos hempty]
      rcases hv : validateSchema env cs fuel (Json.str value) sch with _ | b
      · simp [hempty]
      · cases b
        · simp [hempty, invalidType_ne_missingRequired p.name]
        · simp [hempty]
  · intro hempty hreq env2 fuel2 cs2
    rw [hrun, runParamChecks, hval]
    simp [hempty, hreq]
  · intro hne hbad
    rw [hrun, runParamChecks, hval]
    rw [hsch]
    have hneb : (value == "") = false := by simp [hne]
    simp only [hneb, Bool.false_and]
    rw [if_neg (by simp), if_pos hne, hbad]

/-- A required string-typed query parameter `status`. -/
def statusParam : Parameter :=
  { name := "status", in_ := "query", required := true, schema := some strSchema }

/-- A GET request carrying no query, headers or cookies. -/
def bareReq : OASRequest :=
  { urlPath := "/x", method := "GET", queryParams := [], headers := [], cookies := [],
    contentLength := 0, body := "", route := "", pathItem := none, operation := none }

/-- A literal path entry used by the parameter witnesses. -/
def barePc : PathCache :=
  { item := plainItem, compiledRegex := none, route := "/x", lastAccess := 0, hitCount := 0 }

/-- C4 witness: an absent required query parameter yields exactly the
missing-required error. -/
theorem validateOneParam_requiredness_witness :
    validateOneParam witEnv 1 none bareReq barePc statusParam =
      GoResult.fail ("missing required parameter '" ++ "status" ++ "'") :=
  ((validateOneParam_requiredness witEnv 1 none bareReq barePc statusParam strSchema ""
      rfl rfl rfl).1).mpr ⟨rfl, rfl⟩

/-- C10: a declared cookie-located parameter that is absent from the request
fails immediately with the missing-cookie error whatever its `required`
flag says (no hypothesis on `p.required`): unlike the other locations, an
absent optional cookie is never treated as skippable, so parameter
validation rejects a request omitting an optional cookie. -/
theorem cookie_param_missing_always_fails
    (env : GoEnv) (fuel : Nat) (cs : Option ComponentCache)
    (req : OASRequest) (pc : PathCache) (p : Parameter) (sch : Schema)
    (hin : p.in_ = "cookie") (hsch : p.schema = some sch) (href : sch.f.ref = "")
    (hmiss : cookieGet req p.name = none) :
    validateOneParam env fuel cs req pc p =
      GoResult.fail ("missing cookie parameter '" ++ p.name ++ "'") ∧
    (∀ (st : PState) (op : Operation),
      st.req = req →
      pc.item.parameters = [] →
      GetOperation pc.item (goToUpper st.req.method) = some op →
      op.parameters = [p] →
      ValidateParametersForPath env fuel st pc =
        GoResult.fail ("missing cookie parameter '" ++ p.name ++ "'")) := by
  have hone : ∀ (cs2 : Option ComponentCache), validateOneParam env fuel cs2 req pc p =
      GoResult.fail ("missing cookie parameter '" ++ p.name ++ "'") := by
    intro cs2
    unfold validateOneParam
    rw [hsch]
    simp only [href]
    unfold runParamChecks extractRawParam
    rw [hin, hmiss]
    simp
  refine ⟨hone cs, ?_⟩
  intro st op hreqeq hpathp hget hopp
  unfold ValidateParametersForPath
  simp only [hget, hpathp, hopp]
  have hmerge : mergeParameters [] [p] = [p] := rfl
  rw [hmerge]
  unfold runParamsLoop
  rw [hreqeq, hone st.spec.components]

/-- An optional cookie parameter `session`. -/
def sessionParam : Parameter :=
  { name := "session", in_ := "cookie", required := false, schema := some strSchema }

/-- C10 witness: omitting the optional cookie still fails with the
missing-cookie error. -/
theorem cookie_param_missing_always_fails_witness :
    validateOneParam witEnv 1 none bareReq barePc sessionParam =
      GoResult.fail ("missing cookie parameter '" ++ "session" ++ "'") :=
  (cookie_param_missing_always_fails witEnv 1 none bareReq barePc sessionParam strSchema
    rfl rfl rfl rfl).1

/-- A required path parameter `petId`. -/
def petIdParam : Parameter :=
  { name := "petId", in_ := "path", required := true, schema := some strSchema }

/-- GET operation declaring the `petId` path parameter. -/
def petIdOp : Operation := { parameters := [petIdParam], requestBody := none, security := none }

/-- Path item for `/pet/{petId}`. -/
def petIdItem : PathItem := { PathItem.empty with get := some petIdOp }

/-- The `/pet/{petId}` path entry. -/
def petIdPc : PathCache :=
  { item := petIdItem, compiledRegex := some "/pet/{petId}", route := "/pet/{petId}",
    lastAccess := 0, hitCount := 0 }

/-- A request whose context route was pre-populated with `/pet/{petId}`
while its concrete URL path `/a` has fewer segments than the template. -/
def mismatchReq : OASRequest :=
  { urlPath := "/a", method := "GET", queryParams := [], headers := [], cookies := [],
    contentLength := 0, body := "", route := "/pet/{petId}", pathItem := some petIdItem,
    operation := some petIdOp }

/-- The pipeline state for the C9 theorem. -/
def mismatchSt : PState :=
  { spec := { paths := [("/pet/{petId}", petIdPc)], components := none, security := [] },
    req := mismatchReq }

set_option maxRecDepth 8000 in
/-- C9: `extractPathParam` indexes the concrete path's segments at the
placeholder's position in the route template without a bounds check; with
the pre-populated context route `/pet/{petId}` against the request URL
`/a`, the placeholder position (2) exceeds the path's segment count, an
index-out-of-range run-time panic, and the panic is reachable through
`ValidateParametersForPath` and `ValidateParameters`. -/
theorem extractPathParam_out_of_range :
    extractPathParam "/a" petIdPc "petId" = none ∧
    ValidateParametersForPath witEnv 1 mismatchSt petIdPc = GoResult.panicked ∧
    ValidateParameters witEnv 1 0 mismatchSt = GoResult.panicked :=
  ⟨rfl, rfl, rfl⟩

/-- The claim's reading of the http check: the `Authorization` value is
prefixed, case-insensitively, with the scheme token. -/
def claimedInsensitiveMatch (token auth : String) : Bool :=
  goHasPre (goToLower token) (goToLower auth)

/-- An `http`/`bearer` security scheme. -/
def bearerScheme : SecurityScheme := { type_ := "http", name := "", in_ := "", scheme := "bearer" }

/-- Component store declaring the `auth` scheme. -/
def secComponents : ComponentCache :=
  { schemas := none, parameters := none, securitySchemes := [("auth", bearerScheme)] }

/-- GET operation requiring `auth`. -/
def secOp : Operation :=
  { parameters := [], requestBody := none, security := some [[("auth", [])]] }

/-- Path item for the security examples. -/
def secItem : PathItem := { PathItem.empty with get := some secOp }

/-- The `/s` path entry. -/
def secPc : PathCache :=
  { item := secItem, compiledRegex := none, route := "/s", lastAccess := 0, hitCount := 0 }

/-- A request carrying `Authorization: bearer tok` (lower-case scheme token),
with a fully populated resolution context. -/
def secReqLower : OASRequest :=
  { urlPath := "/s", method := "GET", queryParams := [],
    headers := [("Authorization", "bearer tok")], cookies := [], contentLength := 0,
    body := "", route := "/s", pathItem := some secItem, operation := some secOp }

/-- The pipeline state for the C6 counterexample. -/
def secStLower : PState :=
  { spec := { paths := [("/s", secPc)], components := some secComponents, security := [] },
    req := secReqLower }

/-- C6 counterexample: the header `bearer tok` is, case-insensitively,
prefixed with `Bearer ` — the claim says the bearer requirement passes —
yet the code rejects the request, because `strings.HasPrefix` is
case-sensitive on the header value. -/
theorem security_bearer_case_counterexample :
    claimedInsensitiveMatch "Bearer " "bearer tok" = true ∧
    ValidateSecurity 0 secStLower =
      GoResult.fail "request does not satisfy any security requirements" :=
  ⟨rfl, rfl⟩

/-- C6 amended: for an operation secured by a single http-type scheme (with
a populated request context), security validation passes iff the request
carries a non-empty `Authorization` header whose value starts,
case-sensitively, with the canonical token (`Basic `, `Bearer `, `Digest `,
`ApiKey `) selected by the case-insensitively interpreted declared scheme
name; any other `Authorization` header fails with the error
`request does not satisfy any security requirements`. -/
theorem validateSecurity_http_amended
    (now : Nat) (st : PState) (op : Operation) (schemeName : String)
    (scopes : List String) (s : SecurityScheme) (cc : ComponentCache)
    (hpi : st.req.pathItem.isSome) (hroute : st.req.route ≠ "")
    (hop : st.req.operation = some op)
    (hsec : op.security = some [[(schemeName, scopes)]])
    (hcc : st.spec.components = some cc)
    (hfind : assocFind cc.securitySchemes schemeName = some s)
    (hty : s.type_ = "http") :
    ValidateSecurity now st =
      (if validateHTTPSecurity st.req s then GoResult.ok st
       else GoResult.fail "request does not satisfy any security requirements") ∧
    (validateHTTPSecurity st.req s = true ↔
      (headerGet st.req "Authorization" ≠ "" ∧
       ((goToLower s.scheme = "basic" ∧ goHasPre "Basic " (headerGet st.req "Authorization")) ∨
        (goToLower s.scheme = "bearer" ∧ goHasPre "Bearer " (headerGet st.req "Authorization")) ∨
        (goToLower s.scheme = "digest" ∧ goHasPre "Digest " (headerGet st.req "Authorization")) ∨
        (goToLower s.scheme = "apikey" ∧ goHasPre "ApiKey " (headerGet st.req "Authorization"))))) := by
  constructor
  · have hguard : (st.req.pathItem.isNone || st.req.route == "" || st.req.operation.isNone) = false := by
      rcases hp : st.req.pathItem with _ | pi2
      · rw [hp] at hpi; exact absurd hpi (by simp)
      · simp [hop, hroute]
    unfold ValidateSecurity
    rw [hguard]
    simp only [Bool.false_eq_true, if_neg (by simp : ¬(False))]
    rw [hop]
    simp only [hsec]
    have hreqs : ¬ ([[(schemeName, scopes)]] : List SecurityRequirement).isEmpty = true := by
      simp [List.isEmpty]
    rw [if_neg hreqs]
    unfold anySecurityRequirement
    unfold validateSecurityRequirement
    rw [hcc]
    simp only [hfind, hty]
    by_cases hh : validateHTTPSecurity st.req s
    · simp [hh, validateSecurityRequirement]
    · simp [hh, anySecurityRequirement]
  · unfold validateHTTPSecurity
    by_cases ha : headerGet st.req "Authorization" = ""
    · simp [ha]
    · have hab : (headerGet st.req "Authorization" == "") = false := by simp [ha]
      simp only [hab, Bool.false_eq_true, if_neg (by simp : ¬(False))]
      by_cases hb : goToLower s.scheme = "basic"
      · simp [hb, ha]
      · by_cases hbe : goToLower s.scheme = "bearer"
        · simp [hbe, ha]
        · by_cases hd : goToLower s.scheme = "digest"
          · simp [hd, ha]
          · by_cases hk : goToLower s.scheme = "apikey"
            · simp [hk, ha]
            · simp [hb, hbe, hd, hk, ha]

/-- A request carrying `Authorization: Bearer tok` (canonical capitals),
with a fully populated resolution context. -/
def secReqUpper : OASRequest :=
  { secReqLower with headers := [("Authorization", "Bearer tok")] }

/-- The pipeline state for the C6 witness. -/
def secStUpper : PState :=
  { spec := { paths := [("/s", secPc)], components := some secComponents, security := [] },
    req := secReqUpper }

/-- C6 (amended) witness: the canonical `Bearer ` prefix passes the bearer
requirement. -/
theorem validateSecurity_http_amended_witness :
    ValidateSecurity 0 secStUpper = GoResult.ok secStUpper := by
  have h := validateSecurity_http_amended 0 secStUpper secOp "auth" [] bearerScheme
    secComponents rfl (by decide) rfl rfl rfl rfl rfl
  have hv : validateHTTPSecurity secStUpper.req bearerScheme = true := rfl
  rw [h.1, hv]
  simp

/-- After removing `name`, it is no longer found. -/
theorem assocFind_storeRemove_self (store : Store) (name : String) :
    assocFind (storeRemove store name) name = none := by
  induction store with
  | nil => rfl
  | cons kv rest ih =>
    by_cases h : kv.1 = name
    · simpa [storeRemove, List.filter_cons, h] using ih
    · simpa [storeRemove, List.filter_cons, h, assocFind] using ih

/-- Lookup distributes over append when the left part misses. -/
theorem assocFind_append_of_none {α : Type} (l1 l2 : List (String × α)) (k : String)
    (h : assocFind l1 k = none) : assocFind (l1 ++ l2) k = assocFind l2 k := by
  induction l1 with
  | nil => rfl
  | cons kv rest ih =>
    by_cases hk : kv.1 = k
    · rw [assocFind] at h
      simp [hk] at h
    · rw [assocFind] at h
      simp only [beq_iff_eq, hk, if_neg] at h
      rw [List.cons_append, assocFind]
      simp only [beq_iff_eq, hk, if_neg]
      exact ih h

/-- A successful `LoadAPI` leaves an entry under `name` whose hash is the
content hash. -/
theorem LoadAPI_entry_hash (parse : String → Except String APISpec) (hashFn : String → Nat)
    (now : Nat) (store store1 : Store) (name c : String)
    (hfirst : LoadAPI parse hashFn now store name c = Except.ok store1) :
    ∃ e, assocFind store1 name = some e ∧ e.hash = hashFn c := by
  unfold LoadAPI at hfirst
  rcases hf : assocFind store name with _ | existing
  · rw [hf] at hfirst
    simp only at hfirst
    rcases hp : parse c with e | data
    · rw [hp] at hfirst; exact absurd hfirst (by simp)
    · rw [hp] at hfirst
      simp only [Except.ok.injEq] at hfirst
      subst hfirst
      refine ⟨{ data := data, hash := hashFn c, lastAccess := now, hitCount := 0 }, ?_, rfl⟩
      rw [assocFind_append_of_none _ _ _ hf]
      simp [assocFind]
  · rw [hf] at hfirst
    simp only at hfirst
    by_cases hh : existing.hash == hashFn c
    · rw [if_pos hh] at hfirst
      simp only [Except.ok.injEq] at hfirst
      subst hfirst
      exact ⟨existing, hf, by simpa using hh⟩
    · rw [if_neg hh] at hfirst
      rcases hp : parse c with e | data
      · rw [hp] at hfirst; exact absurd hfirst (by simp)
      · rw [hp] at hfirst
        simp only [Except.ok.injEq] at hfirst
        subst hfirst
        refine ⟨{ data := data, hash := hashFn c, lastAccess := now, hitCount := 0 }, ?_, rfl⟩
        rw [assocFind_append_of_none _ _ _ (assocFind_storeRemove_self store name)]
        simp [assocFind]

/-- C5: after a successful `LoadAPI`, re-loading byte-identical content under
the same name is a no-op — the whole store, the entry included (hit count
and last-access time with it), is unchanged — while loading content with a
different hash under the same name replaces the entry wholesale, with
statistics reset (hit count 0, fresh last-access). -/
theorem loadAPI_idempotent_and_replacing
    (parse : String → Except String APISpec) (hashFn : String → Nat)
    (now now2 : Nat) (store store1 : Store) (name c : String)
    (hfirst : LoadAPI parse hashFn now store name c = Except.ok store1) :
    (LoadAPI parse hashFn now2 store1 name c = Except.ok store1) ∧
    (∀ (c2 : String) (d : APISpec), hashFn c2 ≠ hashFn c → parse c2 = Except.ok d →
       LoadAPI parse hashFn now2 store1 name c2 =
         Except.ok (storeRemove store1 name ++
           [(name, { data := d, hash := hashFn c2, lastAccess := now2, hitCount := 0 })])) := by
  obtain ⟨e, hfind, hhash⟩ := LoadAPI_entry_hash parse hashFn now store store1 name c hfirst
  constructor
  · unfold LoadAPI
    rw [hfind]
    simp [hhash]
  · intro c2 d hne hp
    unfold LoadAPI
    rw [hfind]
    have : (e.hash == hashFn c2) = false := by
      rw [hhash]
      exact beq_eq_false_iff_ne.mpr (fun hcontr => hne hcontr.symm)
    simp [this, hp]

/-- Concrete parsing collaborator for the store witness: everything parses
to the empty specification. -/
def witParse : String → Except String APISpec :=
  fun _ => Except.ok { paths := [], components := none, security := [] }

/-- Concrete content hash for the store witness: the content length. -/
def witHash : String → Nat := fun s => s.data.length

/-- The parsed tree the witness store holds. -/
def emptySpecData : APISpec := { paths := [], components := none, security := [] }

/-- The store after loading content `"v1"` under `petstore` at tick 1. -/
def witStore1 : Store :=
  [("petstore", { data := emptySpecData, hash := 2, lastAccess := 1, hitCount := 0 })]

/-- C5 witness: re-loading `"v1"` is a no-op; loading `"v2x"` (different
hash) replaces the entry with zeroed statistics. -/
theorem loadAPI_idempotent_and_replacing_witness :
    LoadAPI witParse witHash 2 witStore1 "petstore" "v1" = Except.ok witStore1 ∧
    LoadAPI witParse witHash 2 witStore1 "petstore" "v2x" =
      Except.ok (storeRemove witStore1 "petstore" ++
        [("petstore", { data := emptySpecData, hash := 3, lastAccess := 2, hitCount := 0 })]) := by
  have h := loadAPI_idempotent_and_replacing witParse witHash 1 2 [] witStore1 "petstore" "v1" rfl
  exact ⟨h.1, h.2 "v2x" emptySpecData (by decide) rfl⟩

/-- The `/p` path entry for the pipeline example. -/
def pipePc : PathCache :=
  { item := plainItem, compiledRegex := none, route := "/p", lastAccess := 0, hitCount := 0 }

/-- One-route specification for the pipeline example. -/
def pipeSpec : APISpec := { paths := [("/p", pipePc)], components := none, security := [] }

/-- A fresh GET request for `/p`. -/
def pipeReq : OASRequest :=
  { urlPath := "/p", method := "GET", queryParams := [], headers := [], cookies := [],
    contentLength := 0, body := "", route := "", pathItem := none, operation := none }

/-- The starting pipeline state for the C7 example. -/
def pipeSt : PState := { spec := pipeSpec, req := pipeReq }

/-- The state a successful run leaves behind: hit count 2. -/
def pipeStFinal : PState :=
  { spec := { paths := [("/p", { item := plainItem, compiledRegex := none, route := "/p",
                                 lastAccess := 7, hitCount := 2 })],
              components := none, security := [] },
    req := { pipeReq with route := "/p", pathItem := some plainItem, operation := some plainOp } }

set_option maxRecDepth 8000 in
/-- C7 counterexample: one successfully validated request bumps the matched
entry's hit counter from 0 to 2, not 1 — the parameter stage re-runs route
resolution after the path stage already resolved. -/
theorem pipeline_double_hit_counterexample :
    pipePc.hitCount = 0 ∧
    ValidateRequest witEnv 1 7 pipeSt = GoResult.ok pipeStFinal ∧
    (assocFind pipeStFinal.spec.paths "/p").map PathCache.hitCount = some 2 :=
  ⟨rfl, rfl, rfl⟩

/-- Updating the entry found under `k` makes the update visible at `k`. -/
theorem assocFind_assocUpdate_self {α : Type} (l : List (String × α)) (k : String) (v w : α)
    (h : assocFind l k = some v) : assocFind (assocUpdate l k w) k = some w := by
  induction l with
  | nil => simp [assocFind] at h
  | cons kv rest ih =>
    rw [assocFind] at h
    rw [assocUpdate, List.map_cons]
    by_cases hk : (kv.1 == k) = true
    · rw [if_pos hk, assocFind]
      simp [hk]
    · rw [if_neg hk, assocFind, if_neg hk]
      rw [if_neg hk] at h
      rw [assocUpdate] at ih
      exact ih h

/-- A successful parameter stage returns its input state unchanged. -/
theorem ValidateParametersForPath_ok_eq (env : GoEnv) (fuel : Nat) (st : PState)
    (pc : PathCache) (r : PState)
    (h : ValidateParametersForPath env fuel st pc = GoResult.ok r) : r = st := by
  unfold ValidateParametersForPath at h
  cases hg : GetOperation pc.item (goToUpper st.req.method) with
  | none => simp only [hg] at h; exact absurd h (by simp)
  | some op =>
    simp only [hg] at h
    cases hr : runParamsLoop env fuel st.spec.components st.req pc
        (mergeParameters pc.item.parameters op.parameters) with
    | panicked => simp only [hr] at h; exact absurd h (by simp)
    | fail e => simp only [hr] at h; exact absurd h (by simp)
    | ok u => simp only [hr, GoResult.ok.injEq] at h; exact h.symm

/-- With a fully populated context, a successful body stage returns its
input state unchanged (in particular it performs no route resolution). -/
theorem ValidateRequestBody_ok_eq (env : GoEnv) (fuel now : Nat) (st : PState) (r : PState)
    (hguard : (st.req.pathItem.isNone || st.req.route == "" || st.req.operation.isNone) = false)
    (h : ValidateRequestBody env fuel now st = GoResult.ok r) : r = st := by
  unfold ValidateRequestBody at h
  rw [hguard] at h
  simp only [Bool.false_eq_true, if_neg (by simp : ¬(False))] at h
  cases hopn : st.req.operation with
  | none => simp only [hopn] at h; exact absurd h (by simp)
  | some op =>
    simp only [hopn] at h
    cases hb : op.requestBody with
    | none => simp only [hb, GoResult.ok.injEq] at h; exact h.symm
    | some rb =>
      simp only [hb] at h
      split at h
      · exact absurd h (by simp)
      · cases hct : assocFind rb.content (requestContentType st.req) with
        | none => simp only [hct] at h; exact absurd h (by simp)
        | some mt =>
          simp only [hct] at h
          cases hms : mt.schema with
          | none => simp only [hms, GoResult.ok.injEq] at h; exact h.symm
          | some sch =>
            simp only [hms] at h
            cases hd : env.decodeJson st.req.body with
            | error e => simp only [hd] at h; exact absurd h (by simp)
            | ok body =>
              simp only [hd] at h
              cases hv : validateSchema env st.spec.components fuel body sch with
              | none => simp only [hv] at h; exact absurd h (by simp)
              | some b =>
                simp only [hv] at h
                cases b
                · exact absurd h (by simp)
                · simp only [GoResult.ok.injEq] at h
                  exact h.symm

/-- A satisfied requirement list returns the state it was given. -/
theorem anySecurityRequirement_ok_eq (spec : APISpec) (req : OASRequest) (st : PState)
    (l : List SecurityRequirement) (r : PState)
    (h : anySecurityRequirement spec req st l = GoResult.ok r) : r = st := by
  induction l with
  | nil => simp [anySecurityRequirement] at h
  | cons x rest ih =>
    unfold anySecurityRequirement at h
    split at h
    · exact absurd h (by simp)
    · simp only [GoResult.ok.injEq] at h
      exact h.symm
    · exact ih h

/-- With a fully populated context, a successful security stage returns its
input state unchanged. -/
theorem ValidateSecurity_ok_eq (now : Nat) (st : PState) (r : PState)
    (hguard : (st.req.pathItem.isNone || st.req.route == "" || st.req.operation.isNone) = false)
    (h : ValidateSecurity now st = GoResult.ok r) : r = st := by
  unfold ValidateSecurity at h
  rw [hguard] at h
  simp only [Bool.false_eq_true, if_neg (by simp : ¬(False))] at h
  split at h
  · exact absurd h (by simp)
  · split at h
    · simp only [GoResult.ok.injEq] at h
      exact h.symm
    · exact anySecurityRequirement_ok_eq _ _ _ _ _ h

/-- With a populated context (path item and route present), the method stage
does not resolve again; it stores the operation found for the method. -/
theorem ValidateRequestMethod_ctx_ok (now : Nat) (st : PState) (pi2 : PathItem) (op : Operation)
    (hpi : st.req.pathItem = some pi2) (hroute : st.req.route ≠ "")
    (hop : GetOperation pi2 (goToUpper st.req.method) = some op) :
    ValidateRequestMethod now st =
      GoResult.ok { st with req := { st.req with operation := some op } } := by
  unfold ValidateRequestMethod
  have hguard : (st.req.pathItem.isNone || st.req.route == "") = false := by
    simp [hpi, hroute]
  rw [hguard]
  simp only [Bool.false_eq_true, if_false, hpi, hop]

/-- With a populated context, an unknown method fails without resolving. -/
theorem ValidateRequestMethod_ctx_fail (now : Nat) (st : PState) (pi2 : PathItem)
    (hpi : st.req.pathItem = some pi2) (hroute : st.req.route ≠ "")
    (hop : GetOperation pi2 (goToUpper st.req.method) = none) :
    ValidateRequestMethod now st =
      GoResult.fail ("method '" ++ goToUpper st.req.method ++ "' not allowed for path '" ++
        st.req.route ++ "'") := by
  unfold ValidateRequestMethod
  have hguard : (st.req.pathItem.isNone || st.req.route == "") = false := by
    simp [hpi, hroute]
  rw [hguard]
  simp only [Bool.false_eq_true, if_false, hpi, hop]

/-- Inversion of a successful pipeline run into its five stage results. -/
theorem ValidateRequest_ok_inv (env : GoEnv) (fuel now : Nat) (st stF : PState)
    (h : ValidateRequest env fuel now st = GoResult.ok stF) :
    ∃ st1 st2 st3 st4,
      ValidateRequestPath now st = GoResult.ok st1 ∧
      ValidateRequestMethod now st1 = GoResult.ok st2 ∧
      ValidateParameters env fuel now st2 = GoResult.ok st3 ∧
      ValidateRequestBody env fuel now st3 = GoResult.ok st4 ∧
      ValidateSecurity now st4 = GoResult.ok stF := by
  unfold ValidateRequest at h
  cases h1 : ValidateRequestPath now st with
  | panicked => simp only [h1] at h; exact absurd h (by simp)
  | fail e => simp only [h1] at h; exact absurd h (by simp)
  | ok st1 =>
    simp only [h1] at h
    cases h2 : ValidateRequestMethod now st1 with
    | panicked => simp only [h2] at h; exact absurd h (by simp)
    | fail e => simp only [h2] at h; exact absurd h (by simp)
    | ok st2 =>
      simp only [h2] at h
      cases h3 : ValidateParameters env fuel now st2 with
      | panicked => simp only [h3] at h; exact absurd h (by simp)
      | fail e => simp only [h3] at h; exact absurd h (by simp)
      | ok st3 =>
        simp only [h3] at h
        cases h4 : ValidateRequestBody env fuel now st3 with
        | panicked => simp only [h4] at h; exact absurd h (by simp)
        | fail e => simp only [h4] at h; exact absurd h (by simp)
        | ok st4 =>
          simp only [h4] at h
          exact ⟨st1, st2, st3, st4, rfl, h2, h3, h4, h⟩

/-- C7 amended: in one successful `ValidateRequest` run over a literal route
entry (fresh request context), route resolution executes twice — the path
stage resolves, and the parameter stage re-resolves via the stored route
(an exact map hit) — while the method, body and security stages reuse the
populated context; consequently the matched entry's hit counter is
incremented exactly twice and its last-access timestamp set to the run's
tick. -/
theorem pipeline_resolves_twice
    (env : GoEnv) (fuel now : Nat) (st stF : PState) (pc : PathCache)
    (hroute : st.req.route = "")
    (hfound : assocFind st.spec.paths st.req.urlPath = some pc)
    (hkey : pc.route = st.req.urlPath)
    (hne : st.req.urlPath ≠ "")
    (hok : ValidateRequest env fuel now st = GoResult.ok stF) :
    (assocFind stF.spec.paths st.req.urlPath).map PathCache.hitCount =
      some (pc.hitCount + 2) ∧
    (assocFind stF.spec.paths st.req.urlPath).map PathCache.lastAccess = some now := by
  obtain ⟨st1, st2, st3, st4, h1, h2, h3, h4, h5⟩ :=
    ValidateRequest_ok_inv env fuel now st stF hok
  have hrne : pc.route ≠ "" := by rw [hkey]; exact hne
  -- stage 1: the path stage resolves and bumps once
  have hres1 := ResolveRequestPath_found now st st.req.urlPath pc (by simp [hroute]) hfound
  have h1' : ValidateRequestPath now st = GoResult.ok
      { spec := { st.spec with paths := assocUpdate st.spec.paths st.req.urlPath (bumpStats now pc) },
        req := { st.req with route := pc.route, pathItem := some pc.item } } := by
    unfold ValidateRequestPath
    rw [hres1]
  have e1 := h1'.symm.trans h1
  injection e1 with e1
  subst e1
  -- stage 2: the method stage reuses the context
  cases hop : GetOperation pc.item (goToUpper st.req.method) with
  | none =>
    have h2' := ValidateRequestMethod_ctx_fail now
      { spec := { st.spec with paths := assocUpdate st.spec.paths st.req.urlPath (bumpStats now pc) },
        req := { st.req with route := pc.route, pathItem := some pc.item } }
      pc.item rfl hrne hop
    exact absurd (h2'.symm.trans h2) (by simp)
  | some op =>
    have h2' := ValidateRequestMethod_ctx_ok now
      { spec := { st.spec with paths := assocUpdate st.spec.paths st.req.urlPath (bumpStats now pc) },
        req := { st.req with route := pc.route, pathItem := some pc.item } }
      pc.item op rfl hrne hop
    have e2 := h2'.symm.trans h2
    injection e2 with e2
    subst e2
    -- stage 3: the parameter stage re-resolves (second bump)
    have hfound2 : assocFind (assocUpdate st.spec.paths st.req.urlPath (bumpStats now pc))
        st.req.urlPath = some (bumpStats now pc) :=
      assocFind_assocUpdate_self _ _ pc _ hfound
    have hres3 := ResolveRequestPath_found now
      { spec := { st.spec with paths := assocUpdate st.spec.paths st.req.urlPath (bumpStats now pc) },
        req := { st.req with route := pc.route, pathItem := some pc.item, operation := some op } }
      st.req.urlPath (bumpStats now pc) (by rw [hkey]; simp [hne]) hfound2
    unfold ValidateParameters at h3
    simp only [hres3] at h3
    have e3 := ValidateParametersForPath_ok_eq _ _ _ _ _ h3
    subst e3
    -- stage 4: the body stage reuses the context (no resolution)
    have e4 := ValidateRequestBody_ok_eq _ _ _ _ _ (by simp [bumpStats, hrne]) h4
    subst e4
    -- stage 5: the security stage reuses the context
    have e5 := ValidateSecurity_ok_eq now _ stF (by simp [bumpStats, hrne]) h5
    subst e5
    -- the entry was bumped exactly twice
    have hfinal : assocFind
        (assocUpdate (assocUpdate st.spec.paths st.req.urlPath (bumpStats now pc)) st.req.urlPath (bumpStats now (bumpStats now pc)))
        st.req.urlPath = some (bumpStats now (bumpStats now pc)) :=
      assocFind_assocUpdate_self _ _ (bumpStats now pc) _ hfound2
    have hmap1 : Option.map PathCache.hitCount (assocFind
        (assocUpdate (assocUpdate st.spec.paths st.req.urlPath (bumpStats now pc)) st.req.urlPath (bumpStats now (bumpStats now pc)))
        st.req.urlPath) = some (pc.hitCount + 2) := by
      rw [hfinal]
      simp [bumpStats]
    have hmap2 : Option.map PathCache.lastAccess (assocFind
        (assocUpdate (assocUpdate st.spec.paths st.req.urlPath (bumpStats now pc)) st.req.urlPath (bumpStats now (bumpStats now pc)))
        st.req.urlPath) = some now := by
      rw [hfinal]
      simp [bumpStats]
    exact ⟨hmap1, hmap2⟩

/-- C7 (amended) witness: the concrete one-route run bumps the counter by
exactly two. -/
theorem pipeline_resolves_twice_witness :
    (assocFind pipeStFinal.spec.paths "/p").map PathCache.hitCount = some (0 + 2) ∧
    (assocFind pipeStFinal.spec.paths "/p").map PathCache.lastAccess = some 7 :=
  pipeline_resolves_twice witEnv 1 7 pipeSt pipeStFinal pipePc rfl rfl rfl
    (by decide) rfl
